import Mathlib

/-!
UDPing: frame assembly and Internet checksums (`src/protocol.cc`).

A shallow embedding of `checksum`, `udp4_checksum2`, `buildFrame` and `sendMessage`.

Conventions of the embedding:

* memory is a `List Nat`, one cell per byte; a pointer into a buffer is the
  suffix of the list starting at the pointed byte, so `p++` on a `uint16_t *`
  is `List.drop 2`;
* loads interpret a cell modulo 256 and read 0 past the end of the list;
  16-bit loads are in host order, which is little-endian on the x86 Linux
  target of the program;
* `int` values are `Int`, unsigned values are `Nat`, and every place where the
  C arithmetic can wrap carries an explicit `%`;
* the `while` loops are functions that recurse on a fuel argument and
  otherwise follow the loop text; the callers pass a fuel that the theorems
  below show to be enough.
-/

namespace UDPing

/-! ## Memory access -/

/-- An 8-bit load `*(uint8_t *) p` -/
def load8 (p : List Nat) : Nat := p.headD 0 % 256

/-- A 16-bit load `*(uint16_t *) p` in host (little-endian) order -/
def load16 (p : List Nat) : Nat := load8 p + 256 * load8 (p.drop 1)

/-- The two bytes a `uint16_t` store leaves in memory (little-endian host) -/
def bytes16 (v : Nat) : List Nat := [v % 256, v / 256 % 256]

/-- The four bytes a `uint32_t` store leaves in memory (little-endian host) -/
def bytes32 (v : Nat) : List Nat :=
  [v % 256, v / 256 % 256, v / 65536 % 256, v / 16777216 % 256]

/-- The call `memcpy (dst, src, n)`: the first `n` bytes of `dst` are replaced by the
first `n` bytes of `src`. The C call is only defined when both buffers hold `n` bytes. -/
def memcpy (dst src : List Nat) (n : Nat) : List Nat := src.take n ++ dst.drop n

/-- Conversion of an `int` to `uint16_t` (reduction modulo 2^16) -/
def toUint16 (x : Int) : Nat := (x % 65536).toNat

/-- Conversion of an `int` to `size_t` (reduction modulo 2^64) -/
def toSizeT (x : Int) : Nat := (x % 18446744073709551616).toNat

/-- Result of an `int` computation, with two's-complement wrap-around at 32 bits -/
def toInt32 (x : Int) : Int := (x + 2147483648) % 4294967296 - 2147483648

/-- Reduction to `uint32_t` -/
def toUint32 (x : Nat) : Nat := x % 4294967296

/-- The library function `htons` on a little-endian host: swap the two bytes -/
def htons (v : Nat) : Nat := (v % 256) * 256 + v / 256 % 256

/-- The low 16 bits of the bitwise complement `~sum`, which is what
`return ~sum;` yields in a function returning `uint16_t` -/
def not16 (sum : Nat) : Nat := 65535 - sum % 65536

/-! ## Constants -/

def ETH_HDRLEN : Int := 14
def IP4_HDRLEN : Int := 20
def UDP_HDRLEN : Int := 8
/-- The constant `ETH_P_IP` of `linux/if_ether.h` (the value is quoted in the source) -/
def ETH_P_IP : Nat := 0x0800
/-- The constant `IPPROTO_UDP` of `netinet/in.h` -/
def IPPROTO_UDP : Nat := 17

/-! ## Headers -/

/-- The fields of `struct ip` (`netinet/ip.h`), in declaration order -/
structure ip where
  ip_hl : Nat
  ip_v : Nat
  ip_tos : Nat
  ip_len : Nat
  ip_id : Nat
  ip_off : Nat
  ip_ttl : Nat
  ip_p : Nat
  ip_sum : Nat
  ip_src : Nat
  ip_dst : Nat
  deriving DecidableEq, Repr

/-- The fields of `struct udphdr` (`netinet/udp.h`) -/
structure udphdr where
  source : Nat
  dest : Nat
  len : Nat
  check : Nat
  deriving DecidableEq, Repr

/-- Modelled from the spec: `struct frame` is declared in `protocol.h`, which is not
among the sources. Its fields are the ones `buildFrame` assigns, laid out as the
spec's frame: 6 bytes of destination MAC, 6 bytes of source MAC, 2 bytes of
EtherType, the IPv4 header, the UDP header and the payload buffer. -/
structure frame where
  dstMac : List Nat
  srcMac : List Nat
  proto : List Nat
  iphdr : ip
  udphdr : udphdr
  message : List Nat
  deriving DecidableEq, Repr

/-- The 20 bytes of a `struct ip` in memory on a little-endian host: the bit-fields
`ip_hl` and `ip_v` share the first byte, `ip_hl` in the low half. -/
def ip.bytes (h : ip) : List Nat :=
  [(h.ip_v % 16) * 16 + h.ip_hl % 16, h.ip_tos % 256] ++ bytes16 h.ip_len ++ bytes16 h.ip_id
    ++ bytes16 h.ip_off ++ [h.ip_ttl % 256, h.ip_p % 256] ++ bytes16 h.ip_sum
    ++ bytes32 h.ip_src ++ bytes32 h.ip_dst

/-- The 8 bytes of a `struct udphdr` in memory -/
def udphdr.bytes (h : udphdr) : List Nat :=
  bytes16 h.source ++ bytes16 h.dest ++ bytes16 h.len ++ bytes16 h.check

/-- The memory image of a `struct frame`, the buffer `(uint8_t *) &outboundFrame`
that `sendMessage` hands to `sendto` -/
def frameBuf (f : frame) : List Nat :=
  f.dstMac ++ f.srcMac ++ f.proto ++ f.iphdr.bytes ++ f.udphdr.bytes ++ f.message

/-- A `struct frame` has arrays of 6, 6 and 2 bytes in front of the headers -/
def frame.wf (f : frame) : Prop :=
  f.dstMac.length = 6 ∧ f.srcMac.length = 6 ∧ f.proto.length = 2

instance (f : frame) : Decidable f.wf := by
  unfold frame.wf
  infer_instance

/-! ## `checksum` -/

/-- The summing loop of `checksum`:
`while (count > 1) { sum += *(uint16_t*)addr++; count -= 2; }`.
The state is the pointer, the remaining count and the sum. -/
def checksum_loop : Nat → List Nat → Int → Nat → List Nat × Int × Nat
  | 0, addr, count, sum => (addr, count, sum)
  | fuel + 1, addr, count, sum =>
    if count > 1 then checksum_loop fuel (addr.drop 2) (count - 2) (sum + load16 addr)
    else (addr, count, sum)

/-- The folding loop of `checksum`:
`while (sum >> 16) sum = (sum & 0xffff) + (sum >> 16);` -/
def checksum_fold : Nat → Nat → Nat
  | 0, sum => sum
  | fuel + 1, sum =>
    if sum >>> 16 ≠ 0 then checksum_fold fuel ((sum &&& 0xffff) + (sum >>> 16)) else sum

/-- The function `checksum (uint16_t *addr, int count)`. The accumulator is a `long`
(64 bits on the target): with `count` an `int` it stays below 2^47 and never wraps,
so it is a `Nat` here. -/
def checksum (addr : List Nat) (count : Int) : Nat :=
  let sum := 0
  let (addr, count, sum) := checksum_loop count.toNat addr count sum
  let sum := if count > 0 then sum + load8 addr else sum
  let sum := checksum_fold sum sum
  not16 sum

/-! ## `udp4_checksum2` -/

/-- The payload loop of `udp4_checksum2`:
`while (payloadlen > 1) { sum += *(payload++); payloadlen -= 2; }`
on a `uint32_t` accumulator. -/
def udp4_loop : Nat → List Nat → Int → Nat → List Nat × Int × Nat
  | 0, payload, payloadlen, sum => (payload, payloadlen, sum)
  | fuel + 1, payload, payloadlen, sum =>
    if payloadlen > 1 then
      udp4_loop fuel (payload.drop 2) (payloadlen - 2) (toUint32 (sum + load16 payload))
    else (payload, payloadlen, sum)

/-- The folding loop of `udp4_checksum2`, on a `uint32_t` accumulator -/
def udp4_fold : Nat → Nat → Nat
  | 0, sum => sum
  | fuel + 1, sum =>
    if sum >>> 16 ≠ 0 then udp4_fold fuel (toUint32 ((sum &&& 0xffff) + (sum >>> 16)))
    else sum

/-- The function
`udp4_checksum2 (struct ip iphdr, struct udphdr udphdr, uint16_t *payload, int payloadlen)` -/
def udp4_checksum2 (iphdr : ip) (udphdr : udphdr) (payload : List Nat) (payloadlen : Int) :
    Nat :=
  let sum := 0
  let sum := toUint32 (sum + (iphdr.ip_src &&& 0xffff))
  let sum := toUint32 (sum + (iphdr.ip_src >>> 16))
  let sum := toUint32 (sum + (iphdr.ip_dst &&& 0xffff))
  let sum := toUint32 (sum + (iphdr.ip_dst >>> 16))
  let tmp := iphdr.ip_p
  let tmp := (tmp <<< 8) % 65536
  let sum := toUint32 (sum + tmp)
  let sum := toUint32 (sum + udphdr.len)
  let sum := toUint32 (sum + udphdr.source)
  let sum := toUint32 (sum + udphdr.dest)
  let sum := toUint32 (sum + udphdr.len)
  let (payload, payloadlen, sum) := udp4_loop payloadlen.toNat payload payloadlen sum
  let sum :=
    if payloadlen = 1 then
      let tmp := load8 payload
      let tmp := (tmp <<< 8) % 65536
      toUint32 (sum + tmp)
    else sum
  let sum := udp4_fold sum sum
  not16 sum

/-! ## `buildFrame` -/

/-- The function `buildFrame`. The first component of the result is the frame
structure after the call, the second is the returned length. -/
def buildFrame (etherFrame : frame) (srcMac dstMac : List Nat) (srcIp dstIp : Nat)
    (srcPort dstPort : Int) (message : List Nat) (datalen checksumLength : Int) :
    frame × Int := Id.run do
  let mut etherFrame := etherFrame
  let mut checksumLength := checksumLength
  if checksumLength = 0 then
    checksumLength := datalen
  -- Fill in the Ethernet part
  let frameLength := toInt32 (6 + 6 + 2 + IP4_HDRLEN + UDP_HDRLEN + datalen)
  etherFrame := { etherFrame with dstMac := memcpy etherFrame.dstMac dstMac 6 }
  etherFrame := { etherFrame with srcMac := memcpy etherFrame.srcMac srcMac 6 }
  etherFrame := { etherFrame with proto := etherFrame.proto.set 0 (ETH_P_IP / 256) }
  etherFrame := { etherFrame with proto := etherFrame.proto.set 1 (ETH_P_IP % 256) }
  -- IP header
  etherFrame := { etherFrame with iphdr.ip_hl := (IP4_HDRLEN / 4).toNat }
  etherFrame := { etherFrame with iphdr.ip_v := 4 }
  etherFrame := { etherFrame with iphdr.ip_tos := 0 }
  etherFrame := { etherFrame with
    iphdr.ip_len := htons (toUint16 (IP4_HDRLEN + UDP_HDRLEN + datalen)) }
  etherFrame := { etherFrame with iphdr.ip_id := htons 0 }
  etherFrame := { etherFrame with iphdr.ip_off := 0 }
  etherFrame := { etherFrame with iphdr.ip_ttl := 255 }
  etherFrame := { etherFrame with iphdr.ip_p := IPPROTO_UDP }
  etherFrame := { etherFrame with iphdr.ip_src := srcIp }
  etherFrame := { etherFrame with iphdr.ip_dst := dstIp }
  etherFrame := { etherFrame with iphdr.ip_sum := 0 }
  etherFrame := { etherFrame with iphdr.ip_sum := checksum etherFrame.iphdr.bytes IP4_HDRLEN }
  -- UDP header
  etherFrame := { etherFrame with udphdr.source := htons (toUint16 srcPort) }
  etherFrame := { etherFrame with udphdr.dest := htons (toUint16 dstPort) }
  etherFrame := { etherFrame with udphdr.len := htons (toUint16 (UDP_HDRLEN + datalen)) }
  etherFrame := { etherFrame with udphdr.check := 0 }
  let udpcs2 := udp4_checksum2 etherFrame.iphdr etherFrame.udphdr message checksumLength
  etherFrame := { etherFrame with udphdr.check := udpcs2 }
  -- Payload
  etherFrame := { etherFrame with
    message := memcpy etherFrame.message message (toSizeT datalen) }
  return (etherFrame, frameLength)

/-! ## The scenario of the specification -/

/-- A zeroed `struct frame` with room for `n` payload bytes -/
def zeroFrame (n : Nat) : frame :=
  { dstMac := List.replicate 6 0, srcMac := List.replicate 6 0, proto := List.replicate 2 0,
    iphdr := ⟨0, 0, 0, 0, 0, 0, 0, 0, 0, 0, 0⟩, udphdr := ⟨0, 0, 0, 0⟩,
    message := List.replicate n 0 }

/-- The value `inet_addr` gives for the dotted quad `a.b.c.d` on a little-endian host:
the address in network byte order held in a `uint32_t` -/
def inet_addr (a b c d : Nat) : Nat := a + 256 * b + 65536 * c + 16777216 * d

/-- The arguments of the byte-exactness scenario of the specification, with the
payload, its length and the coverage length left open: source MAC 00:11:22:33:44:55,
destination MAC 66:77:88:99:AA:BB, 192.168.1.1 port 1234 to 192.168.1.2 port 5678,
called on a zeroed frame with room for `message.length` payload bytes -/
def scenario (message : List Nat) (datalen checksumLength : Int) : frame × Int :=
  buildFrame (zeroFrame message.length) [0x00, 0x11, 0x22, 0x33, 0x44, 0x55]
    [0x66, 0x77, 0x88, 0x99, 0xAA, 0xBB] (inet_addr 192 168 1 1) (inet_addr 192 168 1 2)
    1234 5678 message datalen checksumLength

/-- The payload "PING" -/
def PING : List Nat := [0x50, 0x49, 0x4E, 0x47]

/-! ## The headers `buildFrame` builds -/

/-- The IPv4 header `buildFrame` passes to `checksum`: every field set, `ip_sum` zero. -/
def builtIp0 (srcIp dstIp : Nat) (datalen : Int) : ip :=
  { ip_hl := 5, ip_v := 4, ip_tos := 0, ip_len := htons (toUint16 (28 + datalen)), ip_id := 0,
    ip_off := 0, ip_ttl := 255, ip_p := 17, ip_sum := 0, ip_src := srcIp, ip_dst := dstIp }

/-- The IPv4 header of the finished frame. -/
def builtIp (srcIp dstIp : Nat) (datalen : Int) : ip :=
  { builtIp0 srcIp dstIp datalen with ip_sum := checksum (builtIp0 srcIp dstIp datalen).bytes 20 }

/-- The UDP header `buildFrame` passes to `udp4_checksum2`: `check` zero. -/
def builtUdp0 (srcPort dstPort datalen : Int) : udphdr :=
  { source := htons (toUint16 srcPort), dest := htons (toUint16 dstPort),
    len := htons (toUint16 (8 + datalen)), check := 0 }

/-! ## Specification-side definitions -/

/-- A `uint16_t` store of `v` at byte offset `off` of the buffer `buf` (host order) -/
def store16 (buf : List Nat) (off v : Nat) : List Nat :=
  (buf.set off (v % 256)).set (off + 1) (v / 256 % 256)

/-- The integer sum of the first `n` bytes at `p` taken as consecutive host-order
16-bit words, a leftover byte counting as a term of its own -/
def sum16 : Nat → List Nat → Nat
  | 0, _ => 0
  | 1, p => load8 p
  | n + 2, p => load16 p + sum16 n (p.drop 2)

/-- The integer sum of the first `n` payload bytes the way `udp4_checksum2` takes them:
consecutive host-order 16-bit words, a leftover byte shifted into the high byte -/
def sum16hi : Nat → List Nat → Nat
  | 0, _ => 0
  | 1, p => load8 p * 256
  | n + 2, p => load16 p + sum16hi n (p.drop 2)

/-- The integer sum of the nine header terms of `udp4_checksum2` -/
def udp4HeaderSum (iph : ip) (udph : udphdr) : Nat :=
  iph.ip_src % 65536 + iph.ip_src / 65536 + iph.ip_dst % 65536 + iph.ip_dst / 65536
    + iph.ip_p * 256 % 65536 + udph.len + udph.source + udph.dest + udph.len

/-- The addresses of a `struct ip` fit their 32-bit fields -/
def ip.addrWf (h : ip) : Prop := h.ip_src < 4294967296 ∧ h.ip_dst < 4294967296

/-- The ports and the length of a `struct udphdr` fit their 16-bit fields -/
def udphdr.wf (h : udphdr) : Prop := h.source < 65536 ∧ h.dest < 65536 ∧ h.len < 65536

instance (h : ip) : Decidable h.addrWf := by
  unfold ip.addrWf
  infer_instance

instance (h : udphdr) : Decidable h.wf := by
  unfold udphdr.wf
  infer_instance

/-- End-around-carry reduction of an integer sum to 16 bits -/
def onesFold (s : Nat) : Nat := if s = 0 then 0 else (s - 1) % 65535 + 1

/-- The 12-byte pseudo-header in memory: source address, destination address, a zero
byte, the protocol byte and the UDP length, each as the headers hold them -/
def pseudoHeader (iph : ip) (udph : udphdr) : List Nat :=
  bytes32 iph.ip_src ++ bytes32 iph.ip_dst ++ [0, iph.ip_p % 256] ++ bytes16 udph.len

/-- The reference UDP checksum: `checksum` over the serialised pseudo-header, the UDP
header with a zero checksum field and the first `c` payload bytes -/
def udp4_checksum_ref (iph : ip) (udph : udphdr) (payload : List Nat) (c : Nat) : Nat :=
  checksum (pseudoHeader iph udph ++ udphdr.bytes { udph with check := 0 }
    ++ payload.take c) ((12 + 8 + c : Nat) : Int)

/-- The UDP check a receiver runs on a frame carrying `n` payload bytes: `checksum`
over the pseudo-header taken from the frame (addresses at bytes 26..33, a zero byte,
the protocol byte 23, the UDP length at bytes 38..39) followed by the UDP header
(bytes 34..41, stored checksum included) and the payload (bytes 42..41+n) -/
def udpReceiverCheck (buf : List Nat) (n : Nat) : Nat :=
  checksum (((buf.drop 26).take 8) ++ [0, buf.getD 23 0] ++ ((buf.drop 38).take 2)
    ++ ((buf.drop 34).take (8 + n))) ((12 + 8 + n : Nat) : Int)

/-! ## `sendMessage` -/

/-- The constant `AF_PACKET` of `sys/socket.h` -/
def AF_PACKET : Nat := 17

/-- The fields of `struct sockaddr_ll` (`linux/if_packet.h`), in declaration order;
`sll_addr` is an array of 8 bytes and the structure takes 20 bytes -/
structure sockaddr_ll where
  sll_family : Nat
  sll_protocol : Nat
  sll_ifindex : Int
  sll_hatype : Nat
  sll_pkttype : Nat
  sll_halen : Nat
  sll_addr : List Nat
  deriving DecidableEq, Repr

/-- The arguments of one call
`sendto (sockfd, buf, len, flags, dest_addr, addrlen)`; `buf` is the memory the
pointer refers to -/
structure sendtoCall where
  sockfd : Int
  buf : List Nat
  len : Nat
  flags : Int
  dest_addr : sockaddr_ll
  addrlen : Nat
  deriving DecidableEq, Repr

/-- What a call of `sendMessage` does: the calls of `sendto` it issues, in order, the
messages it hands to `perror`, and the value it returns -/
structure sendResult where
  calls : List sendtoCall
  diagnostics : List String
  ret : Int
  deriving DecidableEq, Repr

/-- The function `sendMessage`. The system call is the parameter `sendto`, which gives
the count the kernel reports for a call; `outboundFrame` is the content of the
uninitialised local frame when the function starts. -/
def sendMessage (sendto : sendtoCall → Int) (outboundFrame : frame) (socketFD ifIndex : Int)
    (srcMacHex : List Nat) (srcIp : Nat) (srcPort : Int) (dstMacHex : List Nat) (dstIp : Nat)
    (dstPort : Int) (message : List Nat) (datalen checksumLength : Int) : sendResult :=
  Id.run do
  let mut calls : List sendtoCall := []
  let mut diagnostics : List String := []
  -- memset (&device, 0, sizeof (device))
  let mut device : sockaddr_ll :=
    { sll_family := 0, sll_protocol := 0, sll_ifindex := 0, sll_hatype := 0, sll_pkttype := 0,
      sll_halen := 0, sll_addr := List.replicate 8 0 }
  device := { device with sll_ifindex := ifIndex }
  device := { device with sll_family := AF_PACKET }
  device := { device with sll_addr := memcpy device.sll_addr srcMacHex 6 }
  device := { device with sll_halen := 6 }
  let (outboundFrame, frameLength) :=
    buildFrame outboundFrame srcMacHex dstMacHex srcIp dstIp srcPort dstPort message datalen
      checksumLength
  let frameBuf := frameBuf outboundFrame
  let call : sendtoCall :=
    { sockfd := socketFD, buf := frameBuf, len := toSizeT frameLength, flags := 0,
      dest_addr := device, addrlen := 20 }
  calls := calls ++ [call]
  let bytes := sendto call
  if bytes ≠ frameLength then
    diagnostics := diagnostics ++ ["sendto failed"]
  return { calls := calls, diagnostics := diagnostics, ret := datalen }

/-- The call of `sendMessage` in the scenario of the specification, on socket 3 and
interface 2, from a zeroed local frame -/
def sendScenario (sendto : sendtoCall → Int) (message : List Nat)
    (datalen checksumLength : Int) : sendResult :=
  sendMessage sendto (zeroFrame message.length) 3 2 [0x00, 0x11, 0x22, 0x33, 0x44, 0x55]
    (inet_addr 192 168 1 1) 1234 [0x66, 0x77, 0x88, 0x99, 0xAA, 0xBB] (inet_addr 192 168 1 2)
    5678 message datalen checksumLength

/-! ## The sums of the specification -/

/-- The `n / 2` consecutive host-order 16-bit words in the first `n` bytes at `p` -/
def wordTerms (n : Nat) (p : List Nat) : List Nat :=
  (List.range (n / 2)).map fun i => load16 (p.drop (2 * i))

/-- The integer sum of the `n / 2` words of the first `n` bytes at `p` plus, when `n` is
odd, the last byte as a term of its own -/
def checksumSum (n : Nat) (p : List Nat) : Nat :=
  (wordTerms n p).sum + if n % 2 = 1 then load8 (p.drop (n - 1)) else 0

/-- The terms the specification lists for `udp4_checksum2` with coverage length `c`: the
halves of the two addresses, the protocol byte shifted left by 8, the UDP length twice,
the two ports, the `c / 2` payload words and, when `c` is odd, payload byte `c - 1`
shifted left by 8 -/
def udp4Terms (iph : ip) (udph : udphdr) (payload : List Nat) (c : Nat) : List Nat :=
  [iph.ip_src % 65536, iph.ip_src / 65536, iph.ip_dst % 65536, iph.ip_dst / 65536,
    iph.ip_p * 256, udph.len, udph.len, udph.source, udph.dest]
    ++ wordTerms c payload
    ++ (if c % 2 = 1 then [load8 (payload.drop (c - 1)) * 256] else [])

/-! ## `udp4_checksum2` over unbounded integers -/

/-- The payload loop of `udp4_checksum2` without the reduction to `uint32_t` -/
def udp4_loop_unbounded : Nat → List Nat → Int → Nat → List Nat × Int × Nat
  | 0, payload, payloadlen, sum => (payload, payloadlen, sum)
  | fuel + 1, payload, payloadlen, sum =>
    if payloadlen > 1 then
      udp4_loop_unbounded fuel (payload.drop 2) (payloadlen - 2) (sum + load16 payload)
    else (payload, payloadlen, sum)

/-- The accumulator of `udp4_checksum2` when the folding loop starts, computed without
the reduction to `uint32_t`: the text of `udp4_checksum2` up to the folding loop -/
def udp4_sum_unbounded (iphdr : ip) (udphdr : udphdr) (payload : List Nat) (payloadlen : Int) :
    Nat :=
  let sum := 0
  let sum := sum + (iphdr.ip_src &&& 0xffff)
  let sum := sum + (iphdr.ip_src >>> 16)
  let sum := sum + (iphdr.ip_dst &&& 0xffff)
  let sum := sum + (iphdr.ip_dst >>> 16)
  let tmp := iphdr.ip_p
  let tmp := (tmp <<< 8) % 65536
  let sum := sum + tmp
  let sum := sum + udphdr.len
  let sum := sum + udphdr.source
  let sum := sum + udphdr.dest
  let sum := sum + udphdr.len
  let (payload, payloadlen, sum) := udp4_loop_unbounded payloadlen.toNat payload payloadlen sum
  let sum :=
    if payloadlen = 1 then
      let tmp := load8 payload
      let tmp := (tmp <<< 8) % 65536
      sum + tmp
    else sum
  sum

/-- The value of `udp4_checksum2` computed over unbounded integers -/
def udp4_checksum2_unbounded (iphdr : ip) (udphdr : udphdr) (payload : List Nat)
    (payloadlen : Int) : Nat :=
  let sum := udp4_sum_unbounded iphdr udphdr payload payloadlen
  let sum := checksum_fold sum sum
  not16 sum

/-! ## An input that overflows the 32-bit accumulator -/

/-- An IPv4 header with both addresses 255.255.255.255 and protocol UDP -/
def overflowIp : ip :=
  { ip_hl := 5, ip_v := 4, ip_tos := 0, ip_len := 0, ip_id := 0, ip_off := 0, ip_ttl := 255,
    ip_p := 17, ip_sum := 0, ip_src := 0xFFFFFFFF, ip_dst := 0xFFFFFFFF }

/-- A UDP header with every field zero -/
def overflowUdp : udphdr := { source := 0, dest := 0, len := 0, check := 0 }

/-- A payload of 131072 bytes 0xFF -/
def overflowPayload : List Nat := List.replicate 131072 255

/-! ## Bit operations as arithmetic -/

theorem shiftRight16 (s : Nat) : s >>> 16 = s / 65536 := by
  rw [Nat.shiftRight_eq_div_pow]

theorem and_ffff (s : Nat) : s &&& 0xffff = s % 65536 := by
  have h := Nat.and_pow_two_sub_one_eq_mod s 16
  simpa using h

theorem shiftLeft8 (s : Nat) : s <<< 8 = s * 256 := by
  rw [Nat.shiftLeft_eq]

theorem load8_lt (p : List Nat) : load8 p < 256 := by
  unfold load8
  omega

theorem load16_lt (p : List Nat) : load16 p < 65536 := by
  have h1 := load8_lt p
  have h2 := load8_lt (p.drop 1)
  unfold load16
  omega

theorem not16_le (s : Nat) : not16 s ≤ 65535 := by
  unfold not16
  omega

/-! ## The folding loop -/

/-- With fuel at least the sum, the folding loop of `checksum` computes the
end-around-carry reduction. -/
theorem checksum_fold_eq (fuel : Nat) : ∀ s : Nat, s ≤ fuel → checksum_fold fuel s = onesFold s := by
  induction fuel with
  | zero =>
    intro s hs
    have h0 : s = 0 := by omega
    subst h0
    simp [checksum_fold, onesFold]
  | succ fuel ih =>
    intro s hs
    unfold checksum_fold
    rw [shiftRight16, and_ffff]
    by_cases h : s / 65536 = 0
    · simp only [h, ne_eq, not_true_eq_false, if_false]
      unfold onesFold
      split <;> omega
    · simp only [h, ne_eq, not_false_eq_true, if_true]
      rw [ih _ (by omega)]
      unfold onesFold
      split <;> split <;> omega

theorem onesFold_lt (s : Nat) : onesFold s < 65536 := by
  unfold onesFold
  split <;> omega

/-- Adding the complement of the folded sum makes the folded total 0xFFFF. -/
theorem onesFold_add_not16 (s : Nat) : onesFold (s + not16 (onesFold s)) = 65535 := by
  unfold not16 onesFold
  split <;> split <;> omega

/-! ## The summing loop -/

/-- With enough fuel the summing loop and the odd-byte step of `checksum` add to the
accumulator the sum of the words and of the leftover byte. -/
theorem checksum_loop_sum (fuel : Nat) : ∀ (addr : List Nat) (count : Int) (sum : Nat),
    count ≤ 2 * (fuel : Int) + 1 →
    (if (checksum_loop fuel addr count sum).2.1 > 0 then
        (checksum_loop fuel addr count sum).2.2 + load8 (checksum_loop fuel addr count sum).1
      else (checksum_loop fuel addr count sum).2.2) = sum + sum16 count.toNat addr := by
  induction fuel with
  | zero =>
    intro addr count sum h
    simp only [checksum_loop]
    by_cases hc : count > 0
    · have h1 : count = 1 := by omega
      subst h1
      simp [sum16]
    · have h1 : count.toNat = 0 := by omega
      simp [hc, h1, sum16]
  | succ fuel ih =>
    intro addr count sum h
    unfold checksum_loop
    by_cases hc : count > 1
    · simp only [hc, if_true]
      rw [ih _ _ _ (by omega)]
      have h2 : count.toNat = (count - 2).toNat + 2 := by omega
      rw [h2, sum16]
      omega
    · simp only [hc, if_false]
      by_cases hc0 : count > 0
      · have h1 : count = 1 := by omega
        subst h1
        simp [sum16]
      · have h1 : count.toNat = 0 := by omega
        simp [hc0, h1, sum16]

/-- Closed form of `checksum`: the complement of the folded sum of the words. -/
theorem checksum_eq (addr : List Nat) (count : Int) :
    checksum addr count = not16 (onesFold (sum16 count.toNat addr)) := by
  have h := checksum_loop_sum count.toNat addr count 0 (by omega)
  unfold checksum
  simp only [] at h ⊢
  rw [h, checksum_fold_eq _ _ (le_refl _)]
  simp

/-! ## Storing a word in a summed buffer -/

theorem store16_cons_cons (a b : Nat) (rest : List Nat) (off v : Nat) :
    store16 (a :: b :: rest) (off + 2) v = a :: b :: store16 rest off v := by
  simp [store16]

/-- Writing `v` over a zero word that lies inside the summed range adds `v` to the sum. -/
theorem sum16_store16 (k : Nat) : ∀ (n : Nat) (buf : List Nat) (v : Nat),
    2 * k + 1 < n → 2 * k + 1 < buf.length → v < 65536 →
    buf.getD (2 * k) 0 = 0 → buf.getD (2 * k + 1) 0 = 0 →
    sum16 n (store16 buf (2 * k) v) = sum16 n buf + v := by
  induction k with
  | zero =>
    intro n buf v hn hlen hv h0 h1
    obtain ⟨m, rfl⟩ : ∃ m, n = m + 2 := ⟨n - 2, by omega⟩
    match buf, hlen, h0, h1 with
    | a :: b :: rest, _, h0, h1 =>
      simp only [Nat.mul_zero, List.getD_cons_zero, Nat.zero_add, List.getD_cons_succ] at h0 h1
      subst h0
      subst h1
      simp only [sum16, store16, load16, load8, Nat.mul_zero, List.set_cons_zero, Nat.zero_add,
        List.set_cons_succ, List.headD_cons, List.drop_succ_cons, List.drop_zero]
      omega
  | succ k ih =>
    intro n buf v hn hlen hv h0 h1
    obtain ⟨m, rfl⟩ : ∃ m, n = m + 2 := ⟨n - 2, by omega⟩
    match buf, hlen, h0, h1 with
    | a :: b :: rest, hlen, h0, h1 =>
      have e : 2 * (k + 1) = 2 * k + 2 := by ring
      rw [e] at h0 h1 ⊢
      simp only [List.getD_cons_succ] at h0 h1
      simp only [List.length_cons] at hlen
      rw [store16_cons_cons]
      simp only [sum16, load16, load8, List.headD_cons, List.drop_succ_cons, List.drop_zero]
      rw [ih m rest v (by omega) (by omega) hv h0 h1]
      omega

/-! ## The frame `buildFrame` leaves behind -/

theorem buildFrame_fst (etherFrame : frame) (srcMac dstMac : List Nat) (srcIp dstIp : Nat)
    (srcPort dstPort : Int) (message : List Nat) (datalen checksumLength : Int) :
    (buildFrame etherFrame srcMac dstMac srcIp dstIp srcPort dstPort message datalen
        checksumLength).1 =
      { dstMac := memcpy etherFrame.dstMac dstMac 6,
        srcMac := memcpy etherFrame.srcMac srcMac 6,
        proto := (etherFrame.proto.set 0 8).set 1 0,
        iphdr := builtIp srcIp dstIp datalen,
        udphdr := { builtUdp0 srcPort dstPort datalen with
          check := udp4_checksum2 (builtIp srcIp dstIp datalen)
            (builtUdp0 srcPort dstPort datalen) message
            (if checksumLength = 0 then datalen else checksumLength) },
        message := memcpy etherFrame.message message (toSizeT datalen) } := by
  by_cases h : checksumLength = 0 <;>
    simp [buildFrame, Id.run, h, builtIp, builtIp0, builtUdp0, IP4_HDRLEN, UDP_HDRLEN, ETH_P_IP,
      IPPROTO_UDP, htons]

theorem buildFrame_snd (etherFrame : frame) (srcMac dstMac : List Nat) (srcIp dstIp : Nat)
    (srcPort dstPort : Int) (message : List Nat) (datalen checksumLength : Int) :
    (buildFrame etherFrame srcMac dstMac srcIp dstIp srcPort dstPort message datalen
        checksumLength).2 = toInt32 (42 + datalen) := by
  by_cases h : checksumLength = 0 <;>
    simp [buildFrame, Id.run, h, IP4_HDRLEN, UDP_HDRLEN]

theorem length_six {l : List Nat} (h : l.length = 6) :
    ∃ a b c d e f, l = [a, b, c, d, e, f] := by
  match l, h with
  | [a, b, c, d, e, f], _ => exact ⟨a, b, c, d, e, f, rfl⟩

theorem length_two {l : List Nat} (h : l.length = 2) : ∃ a b, l = [a, b] := by
  match l, h with
  | [a, b], _ => exact ⟨a, b, rfl⟩

theorem memcpy_full {dst src : List Nat} {n : Nat} (hd : dst.length = n) (hs : src.length = n) :
    memcpy dst src n = src := by
  unfold memcpy
  rw [List.take_of_length_le (by omega), List.drop_of_length_le (by omega)]
  simp

theorem toSizeT_natCast (n : Nat) (h : n ≤ 2147483647) : toSizeT (n : Int) = n := by
  unfold toSizeT
  omega

theorem toUint16_natCast (n : Nat) (h : n ≤ 65535) : toUint16 (n : Int) = n := by
  unfold toUint16
  omega

/-- The memory image of the frame after `buildFrame`. -/
theorem frameBuf_buildFrame (etherFrame : frame) (srcMac dstMac : List Nat) (srcIp dstIp : Nat)
    (srcPort dstPort : Int) (message : List Nat) (datalen checksumLength : Int)
    (hf : etherFrame.wf) (hs : srcMac.length = 6) (hd : dstMac.length = 6) :
    frameBuf (buildFrame etherFrame srcMac dstMac srcIp dstIp srcPort dstPort message datalen
        checksumLength).1 =
      dstMac ++ (srcMac ++ ([8, 0] ++ ((builtIp srcIp dstIp datalen).bytes ++
        (udphdr.bytes { builtUdp0 srcPort dstPort datalen with
          check := udp4_checksum2 (builtIp srcIp dstIp datalen)
            (builtUdp0 srcPort dstPort datalen) message
            (if checksumLength = 0 then datalen else checksumLength) } ++
        memcpy etherFrame.message message (toSizeT datalen))))) := by
  obtain ⟨h1, h2, h3⟩ := hf
  obtain ⟨p, q, hp⟩ := length_two h3
  rw [buildFrame_fst]
  simp only [frameBuf, memcpy_full h1 hd, memcpy_full h2 hs, hp, List.set_cons_zero,
    List.set_cons_succ, List.append_assoc]

theorem ip_bytes_length (h : ip) : h.bytes.length = 20 := by
  simp [ip.bytes, bytes16, bytes32]

theorem udphdr_bytes_length (h : udphdr) : h.bytes.length = 8 := by
  simp [udphdr.bytes, bytes16]

/-- Storing the checksum of a buffer over a zero word of that buffer makes the
checksum of the buffer 0. -/
theorem checksum_store16_self (buf : List Nat) (n k : Nat) (hk : 2 * k + 1 < n)
    (hlen : 2 * k + 1 < buf.length) (h0 : buf.getD (2 * k) 0 = 0)
    (h1 : buf.getD (2 * k + 1) 0 = 0) :
    checksum (store16 buf (2 * k) (checksum buf (n : Int))) (n : Int) = 0 := by
  have hv : checksum buf (n : Int) < 65536 := by
    rw [checksum_eq]
    have := not16_le (onesFold (sum16 (n : Int).toNat buf))
    omega
  rw [checksum_eq (store16 _ _ _)]
  simp only [Int.toNat_ofNat]
  rw [sum16_store16 k n buf _ hk hlen hv h0 h1, checksum_eq]
  simp only [Int.toNat_ofNat]
  rw [onesFold_add_not16]
  rfl

theorem builtIp_bytes (srcIp dstIp : Nat) (datalen : Int) :
    (builtIp srcIp dstIp datalen).bytes =
      store16 (builtIp0 srcIp dstIp datalen).bytes 10
        (checksum (builtIp0 srcIp dstIp datalen).bytes 20) := by
  simp [builtIp, builtIp0, ip.bytes, bytes16, bytes32, store16]

theorem builtIp0_bytes (srcIp dstIp : Nat) (datalen : Int) :
    (builtIp0 srcIp dstIp datalen).bytes =
      store16 (builtIp srcIp dstIp datalen).bytes 10 0 := by
  simp [builtIp, builtIp0, ip.bytes, bytes16, bytes32, store16]

theorem builtIp_checksum (srcIp dstIp : Nat) (datalen : Int) :
    checksum (builtIp srcIp dstIp datalen).bytes 20 = 0 := by
  rw [builtIp_bytes]
  exact checksum_store16_self (builtIp0 srcIp dstIp datalen).bytes 20 5 (by omega)
    (by rw [ip_bytes_length]; omega) (by simp [builtIp0, ip.bytes, bytes16, bytes32])
    (by simp [builtIp0, ip.bytes, bytes16, bytes32])

/-- The header slice of the frame image is the memory image of the IPv4 header. -/
theorem frameBuf_ip_slice (etherFrame : frame) (srcMac dstMac : List Nat) (srcIp dstIp : Nat)
    (srcPort dstPort : Int) (message : List Nat) (datalen checksumLength : Int)
    (hf : etherFrame.wf) (hs : srcMac.length = 6) (hd : dstMac.length = 6) :
    ((frameBuf (buildFrame etherFrame srcMac dstMac srcIp dstIp srcPort dstPort message datalen
        checksumLength).1).drop 14).take 20 = (builtIp srcIp dstIp datalen).bytes := by
  rw [frameBuf_buildFrame _ _ _ _ _ _ _ _ _ _ hf hs hd]
  obtain ⟨a, b, c, d, e, f, rfl⟩ := length_six hs
  obtain ⟨a', b', c', d', e', f', rfl⟩ := length_six hd
  simp only [List.cons_append, List.nil_append, List.drop_succ_cons, List.drop_zero]
  exact List.take_left' (ip_bytes_length _)

/-! ## The IPv4 header checksum -/

/-- Claim C3: for every input to `buildFrame`, `checksum` over the 20 IPv4 header bytes
of the resulting frame (bytes 14..33, stored header checksum included) returns 0, and
the stored `ip_sum` (bytes 24..25) is the checksum of those 20 bytes with the checksum
field held at zero. -/
theorem buildFrame_ip_checksum_verifies (etherFrame : frame) (srcMac dstMac : List Nat)
    (srcIp dstIp : Nat) (srcPort dstPort : Int) (message : List Nat)
    (datalen checksumLength : Int)
    (hf : etherFrame.wf) (hs : srcMac.length = 6) (hd : dstMac.length = 6) :
    checksum (((frameBuf (buildFrame etherFrame srcMac dstMac srcIp dstIp srcPort dstPort
        message datalen checksumLength).1).drop 14).take 20) 20 = 0 ∧
    load16 ((frameBuf (buildFrame etherFrame srcMac dstMac srcIp dstIp srcPort dstPort
        message datalen checksumLength).1).drop 24) =
      checksum (store16 (((frameBuf (buildFrame etherFrame srcMac dstMac srcIp dstIp srcPort
        dstPort message datalen checksumLength).1).drop 14).take 20) 10 0) 20 := by
  have hslice := frameBuf_ip_slice etherFrame srcMac dstMac srcIp dstIp srcPort dstPort message
    datalen checksumLength hf hs hd
  refine ⟨?_, ?_⟩
  · rw [hslice]
    exact builtIp_checksum srcIp dstIp datalen
  · rw [hslice, ← builtIp0_bytes, frameBuf_buildFrame _ _ _ _ _ _ _ _ _ _ hf hs hd]
    obtain ⟨a, b, c, d, e, f, rfl⟩ := length_six hs
    obtain ⟨a', b', c', d', e', f', rfl⟩ := length_six hd
    have hv : checksum (builtIp0 srcIp dstIp datalen).bytes 20 < 65536 := by
      rw [checksum_eq]
      have := not16_le (onesFold (sum16 (20 : Int).toNat (builtIp0 srcIp dstIp datalen).bytes))
      omega
    simp only [builtIp]
    generalize checksum (builtIp0 srcIp dstIp datalen).bytes 20 = v at hv ⊢
    simp only [ip.bytes, bytes16, bytes32, List.cons_append, List.nil_append,
      List.drop_succ_cons, List.drop_zero, load16, load8, List.headD_cons]
    omega

theorem buildFrame_ip_checksum_verifies_witness :
    checksum (((frameBuf (scenario PING 4 0).1).drop 14).take 20) 20 = 0 ∧
    load16 ((frameBuf (scenario PING 4 0).1).drop 24) =
      checksum (store16 (((frameBuf (scenario PING 4 0).1).drop 14).take 20) 10 0) 20 :=
  buildFrame_ip_checksum_verifies (zeroFrame PING.length) [0x00, 0x11, 0x22, 0x33, 0x44, 0x55]
    [0x66, 0x77, 0x88, 0x99, 0xAA, 0xBB] (inet_addr 192 168 1 1) (inet_addr 192 168 1 2)
    1234 5678 PING 4 0 (by decide) (by decide) (by decide)

/-! ## Self-verification of `checksum` -/

/-- Claim C4: for every buffer of `n ≥ 2` bytes and every 16-bit-aligned word position
`2 * k` inside it (`2 * k + 1 < n`) that holds zero, storing `checksum (buf, n)` at that position in host
order and running `checksum` over the same `n` bytes again returns 0; `n` may be odd and
the first result may be 0xFFFF or 0. -/
theorem checksum_self_verifies (buf : List Nat) (n k : Nat)
    (hlen : buf.length = n) (hk : 2 * k + 1 < n) (h0 : buf.getD (2 * k) 0 = 0)
    (h1 : buf.getD (2 * k + 1) 0 = 0) :
    checksum (store16 buf (2 * k) (checksum buf (n : Int))) (n : Int) = 0 :=
  checksum_store16_self buf n k hk (by omega) h0 h1

theorem checksum_self_verifies_witness :
    checksum (store16 [0x12, 0x34, 0, 0, 0xAB] 2 (checksum [0x12, 0x34, 0, 0, 0xAB] 5)) 5 = 0 :=
  checksum_self_verifies [0x12, 0x34, 0, 0, 0xAB] 5 1 (by decide) (by decide) (by decide)
    (by decide)

/-! ## Coverage defaulting -/

/-- Claim C6: `buildFrame` called with `checksumCoverageLength = 0` stores the same UDP
checksum in the frame as `buildFrame` called with `checksumCoverageLength = payloadLength`
and otherwise identical arguments; the two frames are equal byte for byte. -/
theorem buildFrame_coverage_default (etherFrame : frame) (srcMac dstMac : List Nat)
    (srcIp dstIp : Nat) (srcPort dstPort : Int) (message : List Nat) (datalen : Int) :
    (buildFrame etherFrame srcMac dstMac srcIp dstIp srcPort dstPort message datalen
        0).1.udphdr.check =
      (buildFrame etherFrame srcMac dstMac srcIp dstIp srcPort dstPort message datalen
        datalen).1.udphdr.check ∧
    frameBuf (buildFrame etherFrame srcMac dstMac srcIp dstIp srcPort dstPort message datalen
        0).1 =
      frameBuf (buildFrame etherFrame srcMac dstMac srcIp dstIp srcPort dstPort message datalen
        datalen).1 := by
  have h : (buildFrame etherFrame srcMac dstMac srcIp dstIp srcPort dstPort message datalen
        0).1 =
      (buildFrame etherFrame srcMac dstMac srcIp dstIp srcPort dstPort message datalen
        datalen).1 := by
    rw [buildFrame_fst, buildFrame_fst]
    by_cases hz : datalen = 0
    · simp [hz]
    · simp [hz]
  rw [h]
  exact ⟨rfl, rfl⟩

/-! ## The returned length -/

/-- Claim C10, as stated, fails: in the scenario of the specification (4 payload bytes)
`buildFrame` returns 46, not 34 + 4. -/
theorem buildFrame_length_not_34 :
    (scenario PING 4 0).2 = 46 ∧ (scenario PING 4 0).2 ≠ 34 + 4 := by
  decide

/-- Claim C10, amended: for every payload length `N ≥ 0` whose frame length fits an `int`
and every value of the other arguments, `buildFrame` returns exactly `42 + N`
(14 + 20 + 8 + N). -/
theorem buildFrame_returns_42_plus (etherFrame : frame) (srcMac dstMac : List Nat)
    (srcIp dstIp : Nat) (srcPort dstPort : Int) (message : List Nat) (N : Nat)
    (checksumLength : Int) (hN : 42 + N ≤ 2147483647) :
    (buildFrame etherFrame srcMac dstMac srcIp dstIp srcPort dstPort message (N : Int)
        checksumLength).2 = 42 + (N : Int) := by
  rw [buildFrame_snd]
  unfold toInt32
  omega

theorem buildFrame_returns_42_plus_witness : (scenario PING 4 0).2 = 42 + ((4 : Nat) : Int) :=
  buildFrame_returns_42_plus (zeroFrame PING.length) [0x00, 0x11, 0x22, 0x33, 0x44, 0x55]
    [0x66, 0x77, 0x88, 0x99, 0xAA, 0xBB] (inet_addr 192 168 1 1) (inet_addr 192 168 1 2)
    1234 5678 PING 4 0 (by decide)

/-! ## Frame layout -/

/-- Claim C7: for every input with payload length `N ≥ 0` within the buffer capacity,
after `buildFrame` the frame bytes 0..5 are the destination MAC, bytes 6..11 the source
MAC, bytes 12..13 are 0x08, 0x00, and bytes 42..41+N are the `N` payload bytes verbatim.
In the scenario of the specification the frame is 46 bytes long and its last 4 bytes
are "PING". -/
theorem buildFrame_ethernet_and_payload (etherFrame : frame) (srcMac dstMac : List Nat)
    (srcIp dstIp : Nat) (srcPort dstPort : Int) (message : List Nat) (N : Nat)
    (checksumLength : Int)
    (hf : etherFrame.wf) (hs : srcMac.length = 6) (hd : dstMac.length = 6)
    (hN : N ≤ 2147483647) (hm : N ≤ message.length) (_hcap : N ≤ etherFrame.message.length) :
    ((frameBuf (buildFrame etherFrame srcMac dstMac srcIp dstIp srcPort dstPort message
        (N : Int) checksumLength).1).take 6 = dstMac ∧
      ((frameBuf (buildFrame etherFrame srcMac dstMac srcIp dstIp srcPort dstPort message
        (N : Int) checksumLength).1).drop 6).take 6 = srcMac ∧
      ((frameBuf (buildFrame etherFrame srcMac dstMac srcIp dstIp srcPort dstPort message
        (N : Int) checksumLength).1).drop 12).take 2 = [0x08, 0x00] ∧
      ((frameBuf (buildFrame etherFrame srcMac dstMac srcIp dstIp srcPort dstPort message
        (N : Int) checksumLength).1).drop 42).take N = message.take N) ∧
    ((scenario PING 4 0).2 = 46 ∧
      ((frameBuf (scenario PING 4 0).1).take 46).length = 46 ∧
      ((frameBuf (scenario PING 4 0).1).take 46).drop 42 = PING) := by
  refine ⟨?_, by decide⟩
  rw [frameBuf_buildFrame _ _ _ _ _ _ _ _ _ _ hf hs hd, toSizeT_natCast N hN]
  obtain ⟨a, b, c, d, e, f, rfl⟩ := length_six hs
  obtain ⟨a', b', c', d', e', f', rfl⟩ := length_six hd
  refine ⟨by simp, by simp, by simp, ?_⟩
  simp only [ip.bytes, udphdr.bytes, bytes16, bytes32, List.cons_append, List.nil_append,
    List.drop_succ_cons, List.drop_zero, memcpy]
  exact List.take_left' (by simp [hm])

theorem buildFrame_ethernet_and_payload_witness :
    ((frameBuf (scenario PING 4 0).1).take 6 = [0x66, 0x77, 0x88, 0x99, 0xAA, 0xBB] ∧
      ((frameBuf (scenario PING 4 0).1).drop 6).take 6 = [0x00, 0x11, 0x22, 0x33, 0x44, 0x55] ∧
      ((frameBuf (scenario PING 4 0).1).drop 12).take 2 = [0x08, 0x00] ∧
      ((frameBuf (scenario PING 4 0).1).drop 42).take 4 = PING.take 4) ∧
    ((scenario PING 4 0).2 = 46 ∧
      ((frameBuf (scenario PING 4 0).1).take 46).length = 46 ∧
      ((frameBuf (scenario PING 4 0).1).take 46).drop 42 = PING) :=
  buildFrame_ethernet_and_payload (zeroFrame PING.length) [0x00, 0x11, 0x22, 0x33, 0x44, 0x55]
    [0x66, 0x77, 0x88, 0x99, 0xAA, 0xBB] (inet_addr 192 168 1 1) (inet_addr 192 168 1 2)
    1234 5678 PING 4 0 (by decide) (by decide) (by decide) (by decide) (by decide) (by decide)

/-- Claim C8: for every input with `0 ≤ N ≤ 65507`, the 20 IPv4 header bytes written by
`buildFrame` (frame bytes 14..33) are 0x45, type of service 0, the total length `28 + N`
big-endian, identification 0, flags/fragment offset 0, TTL 255, protocol 17, the header
checksum (the `checksum` of the header with that field zero), then the caller's source
and destination addresses as they lie in memory. In the scenario of the specification
(`N = 4`) the total-length field is 32. -/
theorem buildFrame_ip_header_bytes (etherFrame : frame) (srcMac dstMac : List Nat)
    (srcIp dstIp : Nat) (srcPort dstPort : Int) (message : List Nat) (N : Nat)
    (checksumLength : Int)
    (hf : etherFrame.wf) (hs : srcMac.length = 6) (hd : dstMac.length = 6) (hN : N ≤ 65507) :
    (((frameBuf (buildFrame etherFrame srcMac dstMac srcIp dstIp srcPort dstPort message
        (N : Int) checksumLength).1).drop 14).take 20 =
      [0x45, 0, (28 + N) / 256, (28 + N) % 256, 0, 0, 0, 0, 255, 17] ++
        bytes16 (checksum ([0x45, 0, (28 + N) / 256, (28 + N) % 256, 0, 0, 0, 0, 255, 17, 0, 0]
          ++ bytes32 srcIp ++ bytes32 dstIp) 20) ++ bytes32 srcIp ++ bytes32 dstIp) ∧
    ((frameBuf (scenario PING 4 0).1).drop 16).take 2 = [0, 32] := by
  refine ⟨?_, by decide⟩
  rw [frameBuf_ip_slice _ _ _ _ _ _ _ _ _ _ hf hs hd]
  have h28 : (28 : Int) + (N : Int) = ((28 + N : Nat) : Int) := by push_cast; ring
  have hlen : htons (toUint16 (28 + (N : Int))) = ((28 + N) % 256) * 256 + (28 + N) / 256 := by
    rw [h28, toUint16_natCast _ (by omega)]
    unfold htons
    omega
  have e1 : (((28 + N) % 256) * 256 + (28 + N) / 256) % 256 = (28 + N) / 256 := by omega
  have e2 : (((28 + N) % 256) * 256 + (28 + N) / 256) / 256 % 256 = (28 + N) % 256 := by omega
  simp only [builtIp, builtIp0, ip.bytes, bytes16, bytes32, hlen, e1, e2, List.cons_append,
    List.nil_append]

theorem buildFrame_ip_header_bytes_witness :
    (((frameBuf (scenario PING 4 0).1).drop 14).take 20 =
      [0x45, 0, (28 + 4) / 256, (28 + 4) % 256, 0, 0, 0, 0, 255, 17] ++
        bytes16 (checksum ([0x45, 0, (28 + 4) / 256, (28 + 4) % 256, 0, 0, 0, 0, 255, 17, 0, 0]
          ++ bytes32 (inet_addr 192 168 1 1) ++ bytes32 (inet_addr 192 168 1 2)) 20)
        ++ bytes32 (inet_addr 192 168 1 1) ++ bytes32 (inet_addr 192 168 1 2)) ∧
    ((frameBuf (scenario PING 4 0).1).drop 16).take 2 = [0, 32] :=
  buildFrame_ip_header_bytes (zeroFrame PING.length) [0x00, 0x11, 0x22, 0x33, 0x44, 0x55]
    [0x66, 0x77, 0x88, 0x99, 0xAA, 0xBB] (inet_addr 192 168 1 1) (inet_addr 192 168 1 2)
    1234 5678 PING 4 0 (by decide) (by decide) (by decide) (by decide)

/-- Claim C9: for every input with `0 ≤ N ≤ 65507` and ports in 0..65535, the 8 UDP
header bytes written by `buildFrame` (frame bytes 34..41) are the source port big-endian,
the destination port big-endian, the length `8 + N` big-endian, and the checksum that
`udp4_checksum2` computes from the frame's IPv4 header, the UDP header with a zero
checksum field, the payload and the coverage length. In the scenario of the
specification (ports 1234 and 5678, `N = 4`) the UDP length field is 12. -/
theorem buildFrame_udp_header_bytes (etherFrame : frame) (srcMac dstMac : List Nat)
    (srcIp dstIp : Nat) (srcPort dstPort : Nat) (message : List Nat) (N : Nat)
    (checksumLength : Int)
    (hf : etherFrame.wf) (hs : srcMac.length = 6) (hd : dstMac.length = 6) (hN : N ≤ 65507)
    (hsp : srcPort ≤ 65535) (hdp : dstPort ≤ 65535) :
    (((frameBuf (buildFrame etherFrame srcMac dstMac srcIp dstIp (srcPort : Int)
        (dstPort : Int) message (N : Int) checksumLength).1).drop 34).take 8 =
      [srcPort / 256, srcPort % 256, dstPort / 256, dstPort % 256, (8 + N) / 256,
        (8 + N) % 256] ++
      bytes16 (udp4_checksum2
        (buildFrame etherFrame srcMac dstMac srcIp dstIp (srcPort : Int) (dstPort : Int)
          message (N : Int) checksumLength).1.iphdr
        { (buildFrame etherFrame srcMac dstMac srcIp dstIp (srcPort : Int) (dstPort : Int)
          message (N : Int) checksumLength).1.udphdr with check := 0 }
        message (if checksumLength = 0 then (N : Int) else checksumLength))) ∧
    ((frameBuf (scenario PING 4 0).1).drop 38).take 2 = [0, 12] := by
  refine ⟨?_, by decide⟩
  rw [frameBuf_buildFrame _ _ _ _ _ _ _ _ _ _ hf hs hd, buildFrame_fst]
  obtain ⟨a, b, c, d, e, f, rfl⟩ := length_six hs
  obtain ⟨a', b', c', d', e', f', rfl⟩ := length_six hd
  have h8 : (8 : Int) + (N : Int) = ((8 + N : Nat) : Int) := by push_cast; ring
  have hlen : htons (toUint16 (8 + (N : Int))) = ((8 + N) % 256) * 256 + (8 + N) / 256 := by
    rw [h8, toUint16_natCast _ (by omega)]
    unfold htons
    omega
  have hsrc : htons (toUint16 (srcPort : Int)) = (srcPort % 256) * 256 + srcPort / 256 := by
    rw [toUint16_natCast _ hsp]
    unfold htons
    omega
  have hdst : htons (toUint16 (dstPort : Int)) = (dstPort % 256) * 256 + dstPort / 256 := by
    rw [toUint16_natCast _ hdp]
    unfold htons
    omega
  have e1 : ((8 + N) % 256 * 256 + (8 + N) / 256) % 256 = (8 + N) / 256 := by omega
  have e2 : ((8 + N) % 256 * 256 + (8 + N) / 256) / 256 % 256 = (8 + N) % 256 := by omega
  have e3 : (srcPort % 256 * 256 + srcPort / 256) % 256 = srcPort / 256 := by omega
  have e4 : (srcPort % 256 * 256 + srcPort / 256) / 256 % 256 = srcPort % 256 := by omega
  have e5 : (dstPort % 256 * 256 + dstPort / 256) % 256 = dstPort / 256 := by omega
  have e6 : (dstPort % 256 * 256 + dstPort / 256) / 256 % 256 = dstPort % 256 := by omega
  simp only [ip.bytes, udphdr.bytes, bytes16, bytes32, builtUdp0, hlen, hsrc, hdst, e1, e2, e3,
    e4, e5, e6, List.cons_append, List.nil_append, List.drop_succ_cons, List.drop_zero,
    List.take_succ_cons, List.take_zero]

theorem buildFrame_udp_header_bytes_witness :
    (((frameBuf (scenario PING 4 0).1).drop 34).take 8 =
      [1234 / 256, 1234 % 256, 5678 / 256, 5678 % 256, (8 + 4) / 256, (8 + 4) % 256] ++
      bytes16 (udp4_checksum2 (scenario PING 4 0).1.iphdr
        { (scenario PING 4 0).1.udphdr with check := 0 } PING
        (if (0 : Int) = 0 then ((4 : Nat) : Int) else 0))) ∧
    ((frameBuf (scenario PING 4 0).1).drop 38).take 2 = [0, 12] :=
  buildFrame_udp_header_bytes (zeroFrame PING.length) [0x00, 0x11, 0x22, 0x33, 0x44, 0x55]
    [0x66, 0x77, 0x88, 0x99, 0xAA, 0xBB] (inet_addr 192 168 1 1) (inet_addr 192 168 1 2)
    1234 5678 PING 4 0 (by decide) (by decide) (by decide) (by decide) (by decide) (by decide)

/-! ## The odd payload byte of `udp4_checksum2` -/

/-- Claim C1 at an odd coverage length: with the headers `buildFrame` builds in the
scenario of the specification for the 3-byte payload "PIN", `udp4_checksum2` returns
0xED10 while `checksum` over the serialised pseudo-header, UDP header and payload
returns 0x3AC3. The two differ in the term of the leftover byte: `udp4_checksum2` adds
`0x4E << 8`, `checksum` adds `0x4E`. -/
theorem udp4_checksum2_odd_coverage_differs :
    udp4_checksum2 (scenario [0x50, 0x49, 0x4E] 3 0).1.iphdr
        { (scenario [0x50, 0x49, 0x4E] 3 0).1.udphdr with check := 0 } [0x50, 0x49, 0x4E] 3
      = 0xED10 ∧
    udp4_checksum_ref (scenario [0x50, 0x49, 0x4E] 3 0).1.iphdr
        { (scenario [0x50, 0x49, 0x4E] 3 0).1.udphdr with check := 0 } [0x50, 0x49, 0x4E] 3
      = 0x3AC3 := by
  decide

/-- Claim C2 at an odd payload length: the frame `buildFrame` produces in the scenario of
the specification for the 3-byte payload "PIN" with full coverage (coverage length 0 or
3) carries the UDP checksum 0xED10, and the receiver's check over pseudo-header, UDP
header and payload returns 0x4DB2 instead of 0. -/
theorem buildFrame_odd_payload_fails_receiver_check :
    ((frameBuf (scenario [0x50, 0x49, 0x4E] 3 0).1).drop 40).take 2 = [0x10, 0xED] ∧
    udpReceiverCheck (frameBuf (scenario [0x50, 0x49, 0x4E] 3 0).1) 3 = 0x4DB2 ∧
    udpReceiverCheck (frameBuf (scenario [0x50, 0x49, 0x4E] 3 3).1) 3 = 0x4DB2 := by
  decide

/-- Claim C5 at an odd coverage length: for the payload 0x50, 0, 0, 0 (all bytes from
offset 1 on are zero) and the headers of the scenario, `udp4_checksum2` returns 0x3261
with coverage length 1 and 0x8211 with coverage length 4, and the receiver's check on
the frame built with coverage length 1 returns 0x4FB0 instead of 0. -/
theorem udp4_checksum2_odd_coverage_zero_tail_differs :
    udp4_checksum2 (scenario [0x50, 0, 0, 0] 4 1).1.iphdr
        { (scenario [0x50, 0, 0, 0] 4 1).1.udphdr with check := 0 } [0x50, 0, 0, 0] 1
      = 0x3261 ∧
    udp4_checksum2 (scenario [0x50, 0, 0, 0] 4 1).1.iphdr
        { (scenario [0x50, 0, 0, 0] 4 1).1.udphdr with check := 0 } [0x50, 0, 0, 0] 4
      = 0x8211 ∧
    udpReceiverCheck (frameBuf (scenario [0x50, 0, 0, 0] 4 1).1) 4 = 0x4FB0 := by
  decide

/-! ## Closed form of `udp4_checksum2` -/

/-- With fuel at least the sum, the folding loop of `udp4_checksum2` computes the
end-around-carry reduction of a 32-bit accumulator. -/
theorem udp4_fold_eq (fuel : Nat) : ∀ s : Nat, s ≤ fuel → s < 4294967296 →
    udp4_fold fuel s = onesFold s := by
  induction fuel with
  | zero =>
    intro s hs _
    have h0 : s = 0 := by omega
    subst h0
    simp [udp4_fold, onesFold]
  | succ fuel ih =>
    intro s hs hlt
    unfold udp4_fold
    rw [shiftRight16, and_ffff]
    by_cases h : s / 65536 = 0
    · simp only [h, ne_eq, not_true_eq_false, if_false]
      unfold onesFold
      split <;> omega
    · simp only [h, ne_eq, not_false_eq_true, if_true]
      have e : toUint32 (s % 65536 + s / 65536) = s % 65536 + s / 65536 := by
        unfold toUint32
        omega
      rw [e, ih _ (by omega) (by omega)]
      unfold onesFold
      split <;> split <;> omega

/-- With enough fuel the payload loop and the odd-byte step of `udp4_checksum2` add the
payload sum to the accumulator, modulo 2^32. -/
theorem udp4_loop_sum (fuel : Nat) : ∀ (payload : List Nat) (payloadlen : Int) (sum : Nat),
    payloadlen ≤ 2 * (fuel : Int) + 1 → sum < 4294967296 →
    (if (udp4_loop fuel payload payloadlen sum).2.1 = 1 then
        toUint32 ((udp4_loop fuel payload payloadlen sum).2.2
          + (load8 (udp4_loop fuel payload payloadlen sum).1 <<< 8) % 65536)
      else (udp4_loop fuel payload payloadlen sum).2.2)
      = (sum + sum16hi payloadlen.toNat payload) % 4294967296 := by
  induction fuel with
  | zero =>
    intro payload payloadlen sum h hs
    simp only [udp4_loop]
    by_cases hc : payloadlen = 1
    · subst hc
      have hb := load8_lt payload
      simp only [if_true, Int.toNat_one, sum16hi, shiftLeft8, toUint32]
      omega
    · have h1 : payloadlen.toNat = 0 := by omega
      simp only [hc, if_false, h1, sum16hi]
      omega
  | succ fuel ih =>
    intro payload payloadlen sum h hs
    unfold udp4_loop
    by_cases hc : payloadlen > 1
    · simp only [hc, if_true]
      rw [ih _ _ _ (by omega) (by unfold toUint32; omega)]
      have h2 : payloadlen.toNat = (payloadlen - 2).toNat + 2 := by omega
      rw [h2, sum16hi]
      unfold toUint32
      omega
    · simp only [hc, if_false]
      by_cases hc1 : payloadlen = 1
      · subst hc1
        have hb := load8_lt payload
        simp only [if_true, Int.toNat_one, sum16hi, shiftLeft8, toUint32]
        omega
      · have h1 : payloadlen.toNat = 0 := by omega
        simp only [hc1, if_false, h1, sum16hi]
        omega

/-- Closed form of `udp4_checksum2`: the complement of the folded sum, taken modulo
2^32, of the header terms and the payload terms. -/
theorem udp4_checksum2_eq (iphdr : ip) (udphdr : udphdr) (payload : List Nat)
    (payloadlen : Int) :
    udp4_checksum2 iphdr udphdr payload payloadlen =
      not16 (onesFold ((udp4HeaderSum iphdr udphdr + sum16hi payloadlen.toNat payload)
        % 4294967296)) := by
  have h := udp4_loop_sum payloadlen.toNat payload payloadlen
    (udp4HeaderSum iphdr udphdr % 4294967296) (by omega) (by omega)
  unfold udp4_checksum2
  simp only [shiftRight16, and_ffff, shiftLeft8, toUint32, Nat.zero_add] at h ⊢
  have hsum : ((((((((iphdr.ip_src % 65536 % 4294967296 + iphdr.ip_src / 65536) % 4294967296
      + iphdr.ip_dst % 65536) % 4294967296 + iphdr.ip_dst / 65536) % 4294967296
      + iphdr.ip_p * 256 % 65536) % 4294967296 + udphdr.len) % 4294967296
      + udphdr.source) % 4294967296 + udphdr.dest) % 4294967296 + udphdr.len) % 4294967296
      = udp4HeaderSum iphdr udphdr % 4294967296 := by
    unfold udp4HeaderSum
    omega
  rw [hsum, h]
  rw [udp4_fold_eq _ _ (le_refl _) (by omega)]
  congr 2
  omega

/-! ## Agreement with the reference checksum on even coverage lengths -/

theorem sum16_take (n : Nat) : ∀ p : List Nat, sum16 n (p.take n) = sum16 n p := by
  induction n using Nat.strong_induction_on with
  | _ n ih =>
    intro p
    match n, p with
    | 0, _ => simp [sum16]
    | 1, [] => simp [sum16]
    | 1, a :: r => simp [sum16, load8]
    | n + 2, [] => simp [sum16]
    | n + 2, [a] => simp [sum16, load16, load8]
    | n + 2, a :: b :: r =>
      simp only [sum16, List.take_succ_cons, load16, load8, List.headD_cons, List.drop_succ_cons,
        List.drop_zero]
      rw [ih n (by omega) r]

theorem sum16hi_even (m : Nat) : ∀ p : List Nat, sum16hi (2 * m) p = sum16 (2 * m) p := by
  induction m with
  | zero => intro p; simp [sum16hi, sum16]
  | succ m ih =>
    intro p
    have e : 2 * (m + 1) = 2 * m + 2 := by ring
    rw [e, sum16hi, sum16, ih]

theorem sum16hi_le (n : Nat) : ∀ p : List Nat, sum16hi n p ≤ 65535 * ((n + 1) / 2) := by
  induction n using Nat.strong_induction_on with
  | _ n ih =>
    intro p
    match n with
    | 0 => simp [sum16hi]
    | 1 =>
      have := load8_lt p
      simp only [sum16hi]
      omega
    | n + 2 =>
      have h1 := load16_lt p
      have h2 := ih n (by omega) (p.drop 2)
      simp only [sum16hi]
      omega

/-- The sum `checksum` takes over the reference buffer: the header terms of
`udp4_checksum2` followed by the payload words. -/
theorem sum16_reference_buffer (iph : ip) (udph : udphdr) (rest : List Nat) (c : Nat)
    (hi : iph.addrWf) (hu : udph.wf) :
    sum16 (20 + c) (pseudoHeader iph udph ++ udphdr.bytes { udph with check := 0 } ++ rest) =
      udp4HeaderSum iph udph + sum16 c rest := by
  obtain ⟨h1, h2⟩ := hi
  obtain ⟨h3, h4, h5⟩ := hu
  have e : 20 + c = c + 18 + 2 := by omega
  rw [e]
  simp only [pseudoHeader, udphdr.bytes, bytes16, bytes32, List.cons_append, List.nil_append,
    sum16, load16, load8, List.headD_cons, List.drop_succ_cons, List.drop_zero, udp4HeaderSum]
  omega

/-- On an even coverage length that cannot overflow the 32-bit accumulator,
`udp4_checksum2` agrees with the reference checksum. -/
theorem udp4_checksum2_eq_ref_even (iph : ip) (udph : udphdr) (payload : List Nat) (m : Nat)
    (hi : iph.addrWf) (hu : udph.wf) (hm : 2 * m ≤ 65508) :
    udp4_checksum2 iph udph payload ((2 * m : Nat) : Int) =
      udp4_checksum_ref iph udph payload (2 * m) := by
  rw [udp4_checksum2_eq, udp4_checksum_ref, checksum_eq]
  simp only [Int.toNat_ofNat]
  have e : 12 + 8 + 2 * m = 20 + 2 * m := by omega
  rw [e, sum16_reference_buffer iph udph _ _ hi hu, sum16_take, sum16hi_even]
  have hb := sum16hi_le (2 * m) payload
  rw [sum16hi_even] at hb
  have hh : udp4HeaderSum iph udph < 9 * 65536 := by
    obtain ⟨h1, h2⟩ := hi
    obtain ⟨h3, h4, h5⟩ := hu
    unfold udp4HeaderSum
    omega
  rw [Nat.mod_eq_of_lt (by omega)]

/-! ## The receiver's check on even payload lengths -/

theorem htons_lt (v : Nat) : htons v < 65536 := by
  unfold htons
  omega

theorem udp4_checksum2_le (iph : ip) (udph : udphdr) (payload : List Nat) (c : Int) :
    udp4_checksum2 iph udph payload c ≤ 65535 := by
  rw [udp4_checksum2_eq]
  exact not16_le _

/-- What the receiver checksums in a frame left by `buildFrame`: the pseudo-header, the
UDP header with the stored checksum and the payload. -/
theorem udpReceiverCheck_buildFrame (etherFrame : frame) (srcMac dstMac : List Nat)
    (srcIp dstIp : Nat) (srcPort dstPort : Int) (message : List Nat) (N : Nat)
    (checksumLength : Int)
    (hf : etherFrame.wf) (hs : srcMac.length = 6) (hd : dstMac.length = 6)
    (hN : N ≤ 2147483647) (hm : N ≤ message.length) :
    udpReceiverCheck (frameBuf (buildFrame etherFrame srcMac dstMac srcIp dstIp srcPort dstPort
        message (N : Int) checksumLength).1) N =
      checksum (store16 (pseudoHeader (builtIp srcIp dstIp (N : Int))
          (builtUdp0 srcPort dstPort (N : Int))
          ++ udphdr.bytes { builtUdp0 srcPort dstPort (N : Int) with check := 0 }
          ++ message.take N) 18
        (udp4_checksum2 (builtIp srcIp dstIp (N : Int)) (builtUdp0 srcPort dstPort (N : Int))
          message (if checksumLength = 0 then (N : Int) else checksumLength)))
        ((12 + 8 + N : Nat) : Int) := by
  rw [frameBuf_buildFrame _ _ _ _ _ _ _ _ _ _ hf hs hd, toSizeT_natCast N hN]
  obtain ⟨a, b, c, d, e, f, rfl⟩ := length_six hs
  obtain ⟨a', b', c', d', e', f', rfl⟩ := length_six hd
  have hck := udp4_checksum2_le (builtIp srcIp dstIp (N : Int))
    (builtUdp0 srcPort dstPort (N : Int)) message
    (if checksumLength = 0 then (N : Int) else checksumLength)
  generalize udp4_checksum2 (builtIp srcIp dstIp (N : Int))
    (builtUdp0 srcPort dstPort (N : Int)) message
    (if checksumLength = 0 then (N : Int) else checksumLength) = ck at hck ⊢
  have htake : List.take N (memcpy etherFrame.message message N) = message.take N := by
    unfold memcpy
    exact List.take_left' (by simp [hm])
  have e8 : 8 + N = N + 8 := by omega
  unfold udpReceiverCheck
  congr 1
  simp only [e8, ip.bytes, udphdr.bytes, bytes16, bytes32, pseudoHeader, builtIp, builtIp0,
    store16, List.cons_append, List.nil_append, List.drop_succ_cons, List.drop_zero,
    List.take_succ_cons, List.take_zero, List.getD_cons_succ, List.getD_cons_zero,
    List.set_cons_succ, List.set_cons_zero, htake]

/-- For an even payload length up to 65506 and full coverage, the frame `buildFrame`
produces passes the receiver's UDP check. -/
theorem buildFrame_even_payload_passes_receiver_check (etherFrame : frame)
    (srcMac dstMac : List Nat) (srcIp dstIp : Nat) (srcPort dstPort : Int)
    (message : List Nat) (m : Nat) (checksumLength : Int)
    (hf : etherFrame.wf) (hs : srcMac.length = 6) (hd : dstMac.length = 6)
    (hsrc : srcIp < 4294967296) (hdst : dstIp < 4294967296)
    (hN : 2 * m ≤ 65507) (hm : 2 * m ≤ message.length)
    (hcov : checksumLength = 0 ∨ checksumLength = ((2 * m : Nat) : Int)) :
    udpReceiverCheck (frameBuf (buildFrame etherFrame srcMac dstMac srcIp dstIp srcPort dstPort
        message ((2 * m : Nat) : Int) checksumLength).1) (2 * m) = 0 := by
  rw [udpReceiverCheck_buildFrame _ _ _ _ _ _ _ _ _ _ hf hs hd (by omega) hm]
  have hc : (if checksumLength = 0 then ((2 * m : Nat) : Int) else checksumLength)
      = ((2 * m : Nat) : Int) := by
    rcases hcov with h | h
    · simp [h]
    · rw [h]
      split <;> rfl
  have hi : (builtIp srcIp dstIp ((2 * m : Nat) : Int)).addrWf := ⟨hsrc, hdst⟩
  have hu : (builtUdp0 srcPort dstPort ((2 * m : Nat) : Int)).wf :=
    ⟨htons_lt _, htons_lt _, htons_lt _⟩
  rw [hc, udp4_checksum2_eq_ref_even _ _ _ m hi hu (by omega), udp4_checksum_ref]
  exact checksum_store16_self _ (12 + 8 + 2 * m) 9 (by omega)
    (by simp [pseudoHeader, udphdr.bytes, bytes16, bytes32])
    (by simp [pseudoHeader, udphdr.bytes, bytes16, bytes32])
    (by simp [pseudoHeader, udphdr.bytes, bytes16, bytes32])

theorem buildFrame_even_payload_passes_receiver_check_example :
    udpReceiverCheck (frameBuf (scenario PING 4 0).1) 4 = 0 :=
  buildFrame_even_payload_passes_receiver_check (zeroFrame PING.length)
    [0x00, 0x11, 0x22, 0x33, 0x44, 0x55] [0x66, 0x77, 0x88, 0x99, 0xAA, 0xBB]
    (inet_addr 192 168 1 1) (inet_addr 192 168 1 2) 1234 5678 PING 2 0 (by decide) (by decide)
    (by decide) (by decide) (by decide) (by decide) (by decide) (by decide)

/-! ## Zero padding behind an even coverage length -/

theorem sum16hi_add (m : Nat) : ∀ (p : List Nat) (n : Nat),
    sum16hi (2 * m + n) p = sum16hi (2 * m) p + sum16hi n (p.drop (2 * m)) := by
  induction m with
  | zero => intro p n; simp [sum16hi]
  | succ m ih =>
    intro p n
    have e1 : 2 * (m + 1) + n = 2 * m + n + 2 := by ring
    have e2 : 2 * (m + 1) = 2 * m + 2 := by ring
    rw [e1, e2, sum16hi, sum16hi, ih, List.drop_drop]
    have e3 : 2 * m + 2 = 2 + 2 * m := by ring
    rw [e3]
    omega

theorem sum16hi_zero (n : Nat) : ∀ p : List Nat, (∀ i, i < n → p.getD i 0 = 0) →
    sum16hi n p = 0 := by
  induction n using Nat.strong_induction_on with
  | _ n ih =>
    intro p hp
    match n, p, hp with
    | 0, _, _ => simp [sum16hi]
    | 1, [], _ => simp [sum16hi, load8]
    | 1, a :: r, hp =>
      have h0 := hp 0 (by omega)
      simp only [List.getD_cons_zero] at h0
      simp [sum16hi, load8, h0]
    | n + 2, [], _ =>
      simp only [sum16hi, load16, load8, List.drop_nil, List.headD_nil]
      rw [ih n (by omega) [] (by intro i _; simp)]
    | n + 2, [a], hp =>
      have h0 := hp 0 (by omega)
      simp only [List.getD_cons_zero] at h0
      simp only [sum16hi, load16, load8, List.drop_succ_cons, List.drop_nil, List.headD_nil,
        List.headD_cons, h0]
      rw [ih n (by omega) [] (by intro i _; simp)]
    | n + 2, a :: b :: r, hp =>
      have h0 := hp 0 (by omega)
      have h1 := hp 1 (by omega)
      simp only [List.getD_cons_zero, List.getD_cons_succ] at h0 h1
      simp only [sum16hi, load16, load8, List.drop_succ_cons, List.drop_zero, List.headD_cons,
        h0, h1]
      rw [ih n (by omega) r (by
        intro i hi
        have := hp (i + 2) (by omega)
        simpa using this)]

/-- With an even coverage length `2 * m` and only zero bytes from offset `2 * m` up to the
payload length `N`, `udp4_checksum2` returns the same value for coverage `2 * m` as for
the full payload. -/
theorem udp4_checksum2_even_coverage_zero_tail (iph : ip) (udph : udphdr)
    (payload : List Nat) (m N : Nat) (hmN : 2 * m ≤ N)
    (hz : ∀ i, 2 * m ≤ i → i < N → payload.getD i 0 = 0) :
    udp4_checksum2 iph udph payload ((2 * m : Nat) : Int) =
      udp4_checksum2 iph udph payload (N : Int) := by
  rw [udp4_checksum2_eq, udp4_checksum2_eq]
  simp only [Int.toNat_ofNat]
  obtain ⟨n, rfl⟩ : ∃ n, N = 2 * m + n := ⟨N - 2 * m, by omega⟩
  rw [sum16hi_add m payload n, sum16hi_zero n (payload.drop (2 * m)) (by
    intro i hi
    have := hz (2 * m + i) (by omega) (by omega)
    rw [List.getD_eq_getElem?_getD] at this ⊢
    rw [List.getElem?_drop]
    exact this)]
  rfl

theorem udp4_checksum2_even_coverage_zero_tail_example :
    udp4_checksum2 (scenario [0x50, 0, 0, 0] 4 2).1.iphdr
        { (scenario [0x50, 0, 0, 0] 4 2).1.udphdr with check := 0 } [0x50, 0, 0, 0]
        ((2 * 1 : Nat) : Int) =
      udp4_checksum2 (scenario [0x50, 0, 0, 0] 4 2).1.iphdr
        { (scenario [0x50, 0, 0, 0] 4 2).1.udphdr with check := 0 } [0x50, 0, 0, 0]
        ((4 : Nat) : Int) :=
  udp4_checksum2_even_coverage_zero_tail _ _ [0x50, 0, 0, 0] 1 4 (by decide) (by
    intro i h1 h2
    have h : i = 2 ∨ i = 3 := by omega
    rcases h with h | h <;> subst h <;> rfl)

/-! ## `sendMessage` -/

/-- The device descriptor `sendMessage` builds. -/
theorem sendMessage_calls (sendto : sendtoCall → Int) (outboundFrame : frame)
    (socketFD ifIndex : Int) (srcMacHex : List Nat) (srcIp : Nat) (srcPort : Int)
    (dstMacHex : List Nat) (dstIp : Nat) (dstPort : Int) (message : List Nat)
    (datalen checksumLength : Int) :
    (sendMessage sendto outboundFrame socketFD ifIndex srcMacHex srcIp srcPort dstMacHex dstIp
        dstPort message datalen checksumLength).calls =
      [{ sockfd := socketFD,
         buf := frameBuf (buildFrame outboundFrame srcMacHex dstMacHex srcIp dstIp srcPort
           dstPort message datalen checksumLength).1,
         len := toSizeT (buildFrame outboundFrame srcMacHex dstMacHex srcIp dstIp srcPort
           dstPort message datalen checksumLength).2,
         flags := 0,
         dest_addr :=
           { sll_family := AF_PACKET, sll_protocol := 0, sll_ifindex := ifIndex,
             sll_hatype := 0, sll_pkttype := 0, sll_halen := 6,
             sll_addr := memcpy (List.replicate 8 0) srcMacHex 6 },
         addrlen := 20 }] := by
  unfold sendMessage
  simp only [Id.run, bind, pure]
  split <;> simp

theorem sendMessage_ret (sendto : sendtoCall → Int) (outboundFrame : frame)
    (socketFD ifIndex : Int) (srcMacHex : List Nat) (srcIp : Nat) (srcPort : Int)
    (dstMacHex : List Nat) (dstIp : Nat) (dstPort : Int) (message : List Nat)
    (datalen checksumLength : Int) :
    (sendMessage sendto outboundFrame socketFD ifIndex srcMacHex srcIp srcPort dstMacHex dstIp
        dstPort message datalen checksumLength).ret = datalen := by
  unfold sendMessage
  simp only [Id.run, bind, pure]
  split <;> simp

/-- Claim C11: for every input and every result the transmit call may report,
`sendMessage` returns the caller's `datalen`; two runs that differ only in what the
transmit call reports return the same value. -/
theorem sendMessage_returns_datalen (sendto sendto' : sendtoCall → Int) (outboundFrame : frame)
    (socketFD ifIndex : Int) (srcMacHex : List Nat) (srcIp : Nat) (srcPort : Int)
    (dstMacHex : List Nat) (dstIp : Nat) (dstPort : Int) (message : List Nat)
    (datalen checksumLength : Int) :
    (sendMessage sendto outboundFrame socketFD ifIndex srcMacHex srcIp srcPort dstMacHex dstIp
        dstPort message datalen checksumLength).ret = datalen ∧
    (sendMessage sendto outboundFrame socketFD ifIndex srcMacHex srcIp srcPort dstMacHex dstIp
        dstPort message datalen checksumLength).ret =
      (sendMessage sendto' outboundFrame socketFD ifIndex srcMacHex srcIp srcPort dstMacHex
        dstIp dstPort message datalen checksumLength).ret := by
  rw [sendMessage_ret, sendMessage_ret]
  exact ⟨rfl, rfl⟩

/-- Claim C12, as stated, fails: in the scenario of the specification (4 payload bytes)
the length `sendMessage` passes to the transmit call is 46, not 34 + 4. -/
theorem sendMessage_length_not_34 :
    (sendScenario (fun _ => 46) PING 4 0).calls.map sendtoCall.len = [46] ∧
    (sendScenario (fun _ => 46) PING 4 0).calls.map sendtoCall.len ≠ [34 + 4] := by
  decide

/-- Claim C12, amended: for every input with a 6-byte source MAC and a payload length
`N ≥ 0` whose frame length fits an `int`, `sendMessage` issues exactly one transmit call;
the buffer it passes is the frame `buildFrame` produces for the same MACs, addresses,
ports, payload, `datalen` and `checksumLength`, the length passed is `42 + N`, and the
descriptor has the given interface index, the family `AF_PACKET`, hardware-address
length 6 and the 6 source-MAC bytes, every other field and byte being zero. -/
theorem sendMessage_one_transmit_call (sendto : sendtoCall → Int) (outboundFrame : frame)
    (socketFD ifIndex : Int) (srcMacHex : List Nat) (srcIp : Nat) (srcPort : Int)
    (dstMacHex : List Nat) (dstIp : Nat) (dstPort : Int) (message : List Nat) (N : Nat)
    (checksumLength : Int) (hs : srcMacHex.length = 6) (hN : 42 + N ≤ 2147483647) :
    (sendMessage sendto outboundFrame socketFD ifIndex srcMacHex srcIp srcPort dstMacHex dstIp
        dstPort message (N : Int) checksumLength).calls =
      [{ sockfd := socketFD,
         buf := frameBuf (buildFrame outboundFrame srcMacHex dstMacHex srcIp dstIp srcPort
           dstPort message (N : Int) checksumLength).1,
         len := 42 + N,
         flags := 0,
         dest_addr :=
           { sll_family := AF_PACKET, sll_protocol := 0, sll_ifindex := ifIndex,
             sll_hatype := 0, sll_pkttype := 0, sll_halen := 6,
             sll_addr := srcMacHex ++ [0, 0] },
         addrlen := 20 }] := by
  rw [sendMessage_calls, buildFrame_snd]
  have h1 : toSizeT (toInt32 (42 + (N : Int))) = 42 + N := by
    unfold toSizeT toInt32
    omega
  have h2 : memcpy (List.replicate 8 0) srcMacHex 6 = srcMacHex ++ [0, 0] := by
    obtain ⟨a, b, c, d, e, f, rfl⟩ := length_six hs
    rfl
  rw [h1, h2]

theorem sendMessage_one_transmit_call_witness :
    (sendScenario (fun _ => -1) PING ((4 : Nat) : Int) 0).calls =
      [{ sockfd := 3,
         buf := frameBuf (scenario PING ((4 : Nat) : Int) 0).1,
         len := 42 + 4,
         flags := 0,
         dest_addr :=
           { sll_family := AF_PACKET, sll_protocol := 0, sll_ifindex := 2,
             sll_hatype := 0, sll_pkttype := 0, sll_halen := 6,
             sll_addr := [0x00, 0x11, 0x22, 0x33, 0x44, 0x55] ++ [0, 0] },
         addrlen := 20 }] :=
  sendMessage_one_transmit_call (fun _ => -1) (zeroFrame PING.length) 3 2
    [0x00, 0x11, 0x22, 0x33, 0x44, 0x55] (inet_addr 192 168 1 1) 1234
    [0x66, 0x77, 0x88, 0x99, 0xAA, 0xBB] (inet_addr 192 168 1 2) 5678 PING 4 0
    (by decide) (by decide)

/-! ## The sums as lists of terms -/

theorem wordTerms_add_two (n : Nat) (p : List Nat) :
    wordTerms (n + 2) p = load16 p :: wordTerms n (p.drop 2) := by
  unfold wordTerms
  have e : (n + 2) / 2 = n / 2 + 1 := by omega
  rw [e, List.range_succ_eq_map]
  simp only [List.map_cons, List.map_map, Nat.mul_zero, List.drop_zero, List.cons.injEq,
    true_and]
  apply List.map_congr_left
  intro i _
  simp only [Function.comp, List.drop_drop]
  congr 2
  omega

theorem sum16_eq_checksumSum (n : Nat) : ∀ p : List Nat, sum16 n p = checksumSum n p := by
  induction n using Nat.strong_induction_on with
  | _ n ih =>
    intro p
    match n with
    | 0 => simp [sum16, checksumSum, wordTerms]
    | 1 => simp [sum16, checksumSum, wordTerms]
    | n + 2 =>
      rw [sum16, ih n (by omega)]
      unfold checksumSum
      rw [wordTerms_add_two, List.sum_cons]
      have e1 : (n + 2) % 2 = n % 2 := by omega
      rw [e1]
      by_cases h : n % 2 = 1
      · have e2 : n + 2 - 1 = 2 + (n - 1) := by omega
        simp only [h, if_true, List.drop_drop, e2]
        omega
      · simp only [h, if_false]
        omega

theorem sum16hi_eq_terms (n : Nat) : ∀ p : List Nat,
    sum16hi n p =
      ((wordTerms n p) ++ (if n % 2 = 1 then [load8 (p.drop (n - 1)) * 256] else [])).sum := by
  induction n using Nat.strong_induction_on with
  | _ n ih =>
    intro p
    match n with
    | 0 => simp [sum16hi, wordTerms]
    | 1 => simp [sum16hi, wordTerms]
    | n + 2 =>
      rw [sum16hi, ih n (by omega), wordTerms_add_two]
      have e1 : (n + 2) % 2 = n % 2 := by omega
      rw [e1]
      by_cases h : n % 2 = 1
      · have e2 : n + 2 - 1 = 2 + (n - 1) := by omega
        simp only [h, if_true, List.drop_drop, e2, List.cons_append, List.sum_cons]
      · simp only [h, if_false, List.cons_append, List.sum_cons]

theorem udp4Terms_sum (iph : ip) (udph : udphdr) (payload : List Nat) (c : Nat)
    (hp : iph.ip_p < 256) :
    (udp4Terms iph udph payload c).sum = udp4HeaderSum iph udph + sum16hi c payload := by
  rw [sum16hi_eq_terms]
  unfold udp4Terms udp4HeaderSum
  simp only [List.append_assoc, List.cons_append, List.nil_append, List.sum_cons]
  omega

/-! ## Closed form of `checksum` -/

/-- Claim C13: for every buffer and byte count `n ≥ 0`, `checksum` returns the 16-bit
complement of `F`, where `S` is the integer sum of the `n / 2` consecutive host-order
16-bit words plus, when `n` is odd, the last byte as a term of its own, and `F` is the
end-around-carry reduction of `S`: 0 when `S = 0` and `(S - 1) mod 65535 + 1` otherwise.
The folding loop, started on `S`, ends with `F`, which is below 2^16 (no bit above
position 16 is left). -/
theorem checksum_closed_form (buf : List Nat) (n : Nat) :
    checksum buf (n : Int) =
      65535 - (if checksumSum n buf = 0 then 0 else (checksumSum n buf - 1) % 65535 + 1) ∧
    checksum_fold (checksumSum n buf) (checksumSum n buf) =
      (if checksumSum n buf = 0 then 0 else (checksumSum n buf - 1) % 65535 + 1) ∧
    checksum_fold (checksumSum n buf) (checksumSum n buf) < 65536 ∧
    checksum_fold (checksumSum n buf) (checksumSum n buf) >>> 16 = 0 := by
  have hf := checksum_fold_eq (checksumSum n buf) (checksumSum n buf) (le_refl _)
  have hlt := onesFold_lt (checksumSum n buf)
  refine ⟨?_, hf, by rw [hf]; exact hlt, ?_⟩
  · rw [checksum_eq, Int.toNat_ofNat, sum16_eq_checksumSum]
    unfold not16
    rw [Nat.mod_eq_of_lt hlt]
    rfl
  · rw [hf, shiftRight16]
    omega

/-! ## The terms of `udp4_checksum2` -/

theorem sum16hi_replicate (m : Nat) :
    sum16hi (2 * m) (List.replicate (2 * m) 255) = m * 65535 := by
  induction m with
  | zero => simp [sum16hi]
  | succ m ih =>
    have e : 2 * (m + 1) = 2 * m + 2 := by ring
    rw [e, sum16hi]
    simp only [List.replicate_succ, List.drop_succ_cons, List.drop_zero, load16, load8,
      List.headD_cons]
    rw [ih]
    omega

theorem sum16hi_overflowPayload : sum16hi 131072 overflowPayload = 65536 * 65535 :=
  sum16hi_replicate 65536

/-- Claim C14, as stated, fails when the sum of the terms reaches 2^32: for the
addresses 255.255.255.255, protocol 17, zero ports and length, and 131072 payload bytes
0xFF (coverage length 131072) the terms add up to 4295168252, the complement of their
folded sum is 61183, and `udp4_checksum2` returns 61184. -/
theorem udp4_checksum2_overflow_differs :
    (udp4Terms overflowIp overflowUdp overflowPayload 131072).sum = 4295168252 ∧
    not16 (onesFold (udp4Terms overflowIp overflowUdp overflowPayload 131072).sum) = 61183 ∧
    udp4_checksum2 overflowIp overflowUdp overflowPayload 131072 = 61184 := by
  have hs := sum16hi_overflowPayload
  have ht : (udp4Terms overflowIp overflowUdp overflowPayload 131072).sum = 4295168252 := by
    rw [udp4Terms_sum _ _ _ _ (by decide), hs]
    decide
  refine ⟨ht, ?_, ?_⟩
  · rw [ht]
    decide
  · rw [udp4_checksum2_eq]
    have e : (131072 : Int).toNat = 131072 := rfl
    rw [e, hs]
    decide

/-- Claim C14, amended: for every input (protocol byte below 256, coverage length
`c ≥ 0`), `udp4_checksum2` returns the 16-bit complement of the folded value of the sum,
reduced modulo 2^32 as the `uint32_t` accumulator holds it, of exactly these terms: the
low and high halves of the source address, the low and high halves of the destination
address, the protocol byte shifted left by 8, the UDP length twice, the two ports, the
`c / 2` host-order words of the first `c` payload bytes and, when `c` is odd, payload
byte `c - 1` shifted left by 8. When the sum of the terms is below 2^32 this is the
complement of their folded sum. The checksum field of the UDP header is not a term: the
result does not depend on it. -/
theorem udp4_checksum2_terms (iphdr : ip) (udphdr : udphdr) (payload : List Nat) (c : Nat)
    (hp : iphdr.ip_p < 256) :
    udp4_checksum2 iphdr udphdr payload (c : Int) =
      not16 (onesFold ((udp4Terms iphdr udphdr payload c).sum % 4294967296)) ∧
    ((udp4Terms iphdr udphdr payload c).sum < 4294967296 →
      udp4_checksum2 iphdr udphdr payload (c : Int) =
        not16 (onesFold (udp4Terms iphdr udphdr payload c).sum)) ∧
    (∀ v : Nat, udp4_checksum2 iphdr { udphdr with check := v } payload (c : Int) =
      udp4_checksum2 iphdr udphdr payload (c : Int)) := by
  have h1 : udp4_checksum2 iphdr udphdr payload (c : Int) =
      not16 (onesFold ((udp4Terms iphdr udphdr payload c).sum % 4294967296)) := by
    rw [udp4_checksum2_eq, Int.toNat_ofNat, udp4Terms_sum _ _ _ _ hp]
  refine ⟨h1, ?_, ?_⟩
  · intro hlt
    rw [h1, Nat.mod_eq_of_lt hlt]
  · intro v
    rw [udp4_checksum2_eq, udp4_checksum2_eq]
    rfl

theorem udp4_checksum2_terms_witness :
    udp4_checksum2 (scenario PING 4 0).1.iphdr (scenario PING 4 0).1.udphdr PING ((4 : Nat) : Int)
      = not16 (onesFold ((udp4Terms (scenario PING 4 0).1.iphdr (scenario PING 4 0).1.udphdr
          PING 4).sum % 4294967296)) ∧
    ((udp4Terms (scenario PING 4 0).1.iphdr (scenario PING 4 0).1.udphdr PING 4).sum
        < 4294967296 →
      udp4_checksum2 (scenario PING 4 0).1.iphdr (scenario PING 4 0).1.udphdr PING
          ((4 : Nat) : Int) =
        not16 (onesFold (udp4Terms (scenario PING 4 0).1.iphdr (scenario PING 4 0).1.udphdr
          PING 4).sum)) ∧
    (∀ v : Nat, udp4_checksum2 (scenario PING 4 0).1.iphdr
        { (scenario PING 4 0).1.udphdr with check := v } PING ((4 : Nat) : Int) =
      udp4_checksum2 (scenario PING 4 0).1.iphdr (scenario PING 4 0).1.udphdr PING
        ((4 : Nat) : Int)) :=
  udp4_checksum2_terms (scenario PING 4 0).1.iphdr (scenario PING 4 0).1.udphdr PING 4
    (by decide)

/-! ## Bytes beyond the coverage length -/

theorem sum16hi_take (n : Nat) : ∀ p : List Nat, sum16hi n (p.take n) = sum16hi n p := by
  induction n using Nat.strong_induction_on with
  | _ n ih =>
    intro p
    match n, p with
    | 0, _ => simp [sum16hi]
    | 1, [] => simp [sum16hi]
    | 1, a :: r => simp [sum16hi, load8]
    | n + 2, [] => simp [sum16hi]
    | n + 2, [a] => simp [sum16hi, load16, load8]
    | n + 2, a :: b :: r =>
      simp only [sum16hi, List.take_succ_cons, load16, load8, List.headD_cons,
        List.drop_succ_cons, List.drop_zero]
      rw [ih n (by omega) r]

/-- Claim C15: for every IPv4 header, UDP header, coverage length `c ≥ 0` and any two
payloads that agree on their first `c` bytes, `udp4_checksum2` returns the same value:
no payload byte at offset `c` or beyond influences the result. -/
theorem udp4_checksum2_ignores_uncovered (iphdr : ip) (udphdr : udphdr)
    (payload payload' : List Nat) (c : Nat) (h : payload.take c = payload'.take c) :
    udp4_checksum2 iphdr udphdr payload (c : Int) =
      udp4_checksum2 iphdr udphdr payload' (c : Int) := by
  rw [udp4_checksum2_eq, udp4_checksum2_eq, Int.toNat_ofNat, ← sum16hi_take c payload,
    ← sum16hi_take c payload', h]

theorem udp4_checksum2_ignores_uncovered_witness :
    udp4_checksum2 (scenario PING 4 3).1.iphdr (scenario PING 4 3).1.udphdr PING
        ((3 : Nat) : Int) =
      udp4_checksum2 (scenario PING 4 3).1.iphdr (scenario PING 4 3).1.udphdr
        [0x50, 0x49, 0x4E, 0xFF, 0xEE] ((3 : Nat) : Int) :=
  udp4_checksum2_ignores_uncovered (scenario PING 4 3).1.iphdr (scenario PING 4 3).1.udphdr
    PING [0x50, 0x49, 0x4E, 0xFF, 0xEE] 3 (by decide)

/-! ## A computed checksum of zero -/

/-- Claim C16: `udp4_checksum2` does not special-case a computed checksum of 0. In the
scenario of the specification with the 2-byte payload 0x61, 0x86 the folded sum of the
terms is 0xFFFF, `udp4_checksum2` returns 0, and `buildFrame` stores the bytes 0, 0
(not 0xFF, 0xFF) in the UDP checksum field of the frame (bytes 40..41). -/
theorem udp4_checksum2_zero_not_special :
    onesFold (udp4Terms (scenario [0x61, 0x86] 2 0).1.iphdr
        { (scenario [0x61, 0x86] 2 0).1.udphdr with check := 0 } [0x61, 0x86] 2).sum
      = 0xFFFF ∧
    udp4_checksum2 (scenario [0x61, 0x86] 2 0).1.iphdr
        { (scenario [0x61, 0x86] 2 0).1.udphdr with check := 0 } [0x61, 0x86] 2 = 0 ∧
    (scenario [0x61, 0x86] 2 0).1.udphdr.check = 0 ∧
    ((frameBuf (scenario [0x61, 0x86] 2 0).1).drop 40).take 2 = [0, 0] := by
  decide

/-! ## Termination of the loops -/

theorem checksum_loop_exit (fuel : Nat) : ∀ (addr : List Nat) (count : Int) (sum : Nat),
    count ≤ 2 * (fuel : Int) + 1 → (checksum_loop fuel addr count sum).2.1 ≤ 1 := by
  induction fuel with
  | zero =>
    intro addr count sum h
    simp only [checksum_loop]
    omega
  | succ fuel ih =>
    intro addr count sum h
    unfold checksum_loop
    by_cases hc : count > 1
    · simp only [hc, if_true]
      exact ih _ _ _ (by omega)
    · simp only [hc, if_false]
      omega

theorem checksum_loop_more_fuel (fuel : Nat) :
    ∀ (extra : Nat) (addr : List Nat) (count : Int) (sum : Nat),
    count ≤ 2 * (fuel : Int) + 1 →
    checksum_loop (fuel + extra) addr count sum = checksum_loop fuel addr count sum := by
  induction fuel with
  | zero =>
    intro extra addr count sum h
    match extra with
    | 0 => rfl
    | extra + 1 =>
      have hc : ¬ count > 1 := by omega
      simp only [Nat.zero_add, checksum_loop, hc, if_false]
  | succ fuel ih =>
    intro extra addr count sum h
    have e : fuel + 1 + extra = fuel + extra + 1 := by omega
    rw [e]
    unfold checksum_loop
    by_cases hc : count > 1
    · simp only [hc, if_true]
      exact ih _ _ _ _ (by omega)
    · simp only [hc, if_false]

theorem udp4_loop_exit (fuel : Nat) : ∀ (payload : List Nat) (payloadlen : Int) (sum : Nat),
    payloadlen ≤ 2 * (fuel : Int) + 1 → (udp4_loop fuel payload payloadlen sum).2.1 ≤ 1 := by
  induction fuel with
  | zero =>
    intro payload payloadlen sum h
    simp only [udp4_loop]
    omega
  | succ fuel ih =>
    intro payload payloadlen sum h
    unfold udp4_loop
    by_cases hc : payloadlen > 1
    · simp only [hc, if_true]
      exact ih _ _ _ (by omega)
    · simp only [hc, if_false]
      omega

theorem udp4_loop_more_fuel (fuel : Nat) :
    ∀ (extra : Nat) (payload : List Nat) (payloadlen : Int) (sum : Nat),
    payloadlen ≤ 2 * (fuel : Int) + 1 →
    udp4_loop (fuel + extra) payload payloadlen sum = udp4_loop fuel payload payloadlen sum := by
  induction fuel with
  | zero =>
    intro extra payload payloadlen sum h
    match extra with
    | 0 => rfl
    | extra + 1 =>
      have hc : ¬ payloadlen > 1 := by omega
      simp only [Nat.zero_add, udp4_loop, hc, if_false]
  | succ fuel ih =>
    intro extra payload payloadlen sum h
    have e : fuel + 1 + extra = fuel + extra + 1 := by omega
    rw [e]
    unfold udp4_loop
    by_cases hc : payloadlen > 1
    · simp only [hc, if_true]
      exact ih _ _ _ _ (by omega)
    · simp only [hc, if_false]

/-- Claim C17: `checksum` and `udp4_checksum2` are total. For every buffer, every count
(zero and negative included) and every accumulator value: the summing loops, run with
the fuel the functions give them, stop with a remaining count of at most 1, and more
fuel changes nothing; one loop step lowers the remaining count by 2; a fold step strictly
lowers a sum of at least 2^16; the folding loops, run with the fuel the functions give
them, stop with no bit above position 16 left, and more fuel changes nothing; both
functions return a value below 2^16; for a count `-n ≤ 0` `checksum` returns 0xFFFF
whatever the buffer holds. -/
theorem checksum_total (addr payload : List Nat) (count : Int) (iphdr : ip) (udphdr : udphdr)
    (sum extra n : Nat) :
    ((checksum_loop count.toNat addr count sum).2.1 ≤ 1 ∧
      checksum_loop (count.toNat + extra) addr count sum =
        checksum_loop count.toNat addr count sum ∧
      (udp4_loop count.toNat payload count sum).2.1 ≤ 1 ∧
      udp4_loop (count.toNat + extra) payload count sum =
        udp4_loop count.toNat payload count sum) ∧
    (checksum_loop (extra + 1) addr ((n : Int) + 2) sum =
        checksum_loop extra (addr.drop 2) (n : Int) (sum + load16 addr) ∧
      udp4_loop (extra + 1) payload ((n : Int) + 2) sum =
        udp4_loop extra (payload.drop 2) (n : Int) (toUint32 (sum + load16 payload))) ∧
    (((65536 + sum) &&& 0xffff) + ((65536 + sum) >>> 16) < 65536 + sum ∧
      toUint32 (((65536 + sum) &&& 0xffff) + ((65536 + sum) >>> 16)) < 65536 + sum) ∧
    (checksum_fold sum sum >>> 16 = 0 ∧
      checksum_fold (sum + extra) sum = checksum_fold sum sum ∧
      udp4_fold (toUint32 sum) (toUint32 sum) >>> 16 = 0 ∧
      udp4_fold (toUint32 sum + extra) (toUint32 sum) =
        udp4_fold (toUint32 sum) (toUint32 sum)) ∧
    (checksum addr count < 65536 ∧
      udp4_checksum2 iphdr udphdr payload count < 65536 ∧
      checksum addr (-(n : Int)) = 0xFFFF) := by
  have hu : toUint32 sum < 4294967296 := by unfold toUint32; omega
  refine ⟨⟨?_, ?_, ?_, ?_⟩, ⟨?_, ?_⟩, ⟨?_, ?_⟩, ⟨?_, ?_, ?_, ?_⟩, ⟨?_, ?_, ?_⟩⟩
  · exact checksum_loop_exit _ _ _ _ (by omega)
  · exact checksum_loop_more_fuel _ _ _ _ _ (by omega)
  · exact udp4_loop_exit _ _ _ _ (by omega)
  · exact udp4_loop_more_fuel _ _ _ _ _ (by omega)
  · have hc : (n : Int) + 2 > 1 := by omega
    rw [checksum_loop]
    simp only [hc, if_true, Int.add_sub_cancel]
  · have hc : (n : Int) + 2 > 1 := by omega
    rw [udp4_loop]
    simp only [hc, if_true, Int.add_sub_cancel]
  · rw [shiftRight16, and_ffff]
    omega
  · rw [shiftRight16, and_ffff]
    have h1 : (65536 + sum) % 65536 + (65536 + sum) / 65536 < 65536 + sum := by omega
    exact lt_of_le_of_lt (Nat.mod_le _ _) h1
  · rw [checksum_fold_eq _ _ (le_refl _), shiftRight16]
    have := onesFold_lt sum
    omega
  · rw [checksum_fold_eq _ _ (le_refl _), checksum_fold_eq _ _ (by omega)]
  · rw [udp4_fold_eq _ _ (le_refl _) hu, shiftRight16]
    have := onesFold_lt (toUint32 sum)
    omega
  · rw [udp4_fold_eq _ _ (le_refl _) hu, udp4_fold_eq _ _ (by omega) hu]
  · rw [checksum_eq]
    have := not16_le (onesFold (sum16 count.toNat addr))
    omega
  · have := udp4_checksum2_le iphdr udphdr payload count
    omega
  · rw [checksum_eq]
    have e : (-(n : Int)).toNat = 0 := by omega
    rw [e]
    rfl

/-! ## Prior contents of the frame buffer -/

/-- The first `42 + N` bytes of the frame image after `buildFrame` in terms of the
arguments alone. -/
theorem frameBuf_buildFrame_take (etherFrame : frame) (srcMac dstMac : List Nat)
    (srcIp dstIp : Nat) (srcPort dstPort : Int) (message : List Nat) (N : Nat)
    (checksumLength : Int)
    (hf : etherFrame.wf) (hs : srcMac.length = 6) (hd : dstMac.length = 6)
    (hN : N ≤ 2147483647) (hm : N ≤ message.length) :
    (frameBuf (buildFrame etherFrame srcMac dstMac srcIp dstIp srcPort dstPort message
        (N : Int) checksumLength).1).take (42 + N) =
      dstMac ++ (srcMac ++ ([8, 0] ++ ((builtIp srcIp dstIp (N : Int)).bytes ++
        (udphdr.bytes { builtUdp0 srcPort dstPort (N : Int) with
          check := udp4_checksum2 (builtIp srcIp dstIp (N : Int))
            (builtUdp0 srcPort dstPort (N : Int)) message
            (if checksumLength = 0 then (N : Int) else checksumLength) } ++
        message.take N)))) := by
  rw [frameBuf_buildFrame _ _ _ _ _ _ _ _ _ _ hf hs hd, toSizeT_natCast N hN]
  obtain ⟨a, b, c, d, e, f, rfl⟩ := length_six hs
  obtain ⟨a', b', c', d', e', f', rfl⟩ := length_six hd
  have htake : List.take N (memcpy etherFrame.message message N) = message.take N := by
    unfold memcpy
    exact List.take_left' (by simp [hm])
  have e42 : 42 + N = N + 42 := by omega
  simp only [e42, ip.bytes, udphdr.bytes, bytes16, bytes32, List.cons_append, List.nil_append,
    List.take_succ_cons, htake]

/-- Claim C18: for every input and any two initial contents of the frame buffer, the
first `34 + N` bytes after `buildFrame` are identical, and so are the first `42 + N`
bytes, which are the whole frame (Ethernet header, IPv4 header, UDP header and payload);
the bytes `sendMessage` hands to the transmit call from its uninitialised local frame
therefore do not depend on what that frame held before. -/
theorem buildFrame_overwrites_frame (etherFrame etherFrame' : frame) (srcMac dstMac : List Nat)
    (srcIp dstIp : Nat) (srcPort dstPort : Int) (message : List Nat) (N : Nat)
    (checksumLength : Int) (sendto : sendtoCall → Int) (socketFD ifIndex : Int)
    (hf : etherFrame.wf) (hf' : etherFrame'.wf) (hs : srcMac.length = 6)
    (hd : dstMac.length = 6) (hN : 42 + N ≤ 2147483647) (hm : N ≤ message.length)
    (_hcap : N ≤ etherFrame.message.length) (_hcap' : N ≤ etherFrame'.message.length) :
    (frameBuf (buildFrame etherFrame srcMac dstMac srcIp dstIp srcPort dstPort message
        (N : Int) checksumLength).1).take (34 + N) =
      (frameBuf (buildFrame etherFrame' srcMac dstMac srcIp dstIp srcPort dstPort message
        (N : Int) checksumLength).1).take (34 + N) ∧
    (frameBuf (buildFrame etherFrame srcMac dstMac srcIp dstIp srcPort dstPort message
        (N : Int) checksumLength).1).take (42 + N) =
      (frameBuf (buildFrame etherFrame' srcMac dstMac srcIp dstIp srcPort dstPort message
        (N : Int) checksumLength).1).take (42 + N) ∧
    (sendMessage sendto etherFrame socketFD ifIndex srcMac srcIp srcPort dstMac dstIp dstPort
        message (N : Int) checksumLength).calls.map (fun c => c.buf.take c.len) =
      (sendMessage sendto etherFrame' socketFD ifIndex srcMac srcIp srcPort dstMac dstIp
        dstPort message (N : Int) checksumLength).calls.map (fun c => c.buf.take c.len) := by
  have h42 : (frameBuf (buildFrame etherFrame srcMac dstMac srcIp dstIp srcPort dstPort message
        (N : Int) checksumLength).1).take (42 + N) =
      (frameBuf (buildFrame etherFrame' srcMac dstMac srcIp dstIp srcPort dstPort message
        (N : Int) checksumLength).1).take (42 + N) := by
    rw [frameBuf_buildFrame_take _ _ _ _ _ _ _ _ _ _ hf hs hd (by omega) hm,
      frameBuf_buildFrame_take _ _ _ _ _ _ _ _ _ _ hf' hs hd (by omega) hm]
  have hlen : toSizeT (toInt32 (42 + (N : Int))) = 42 + N := by
    unfold toSizeT toInt32
    omega
  refine ⟨?_, h42, ?_⟩
  · have e : ∀ l : List Nat, l.take (34 + N) = (l.take (42 + N)).take (34 + N) := by
      intro l
      rw [List.take_take, Nat.min_eq_left (by omega)]
    rw [e (frameBuf _), h42, ← e]
  · rw [sendMessage_calls, sendMessage_calls, buildFrame_snd, buildFrame_snd, hlen]
    simp only [List.map_cons, List.map_nil, h42]

theorem buildFrame_overwrites_frame_witness :
    (frameBuf (scenario PING ((4 : Nat) : Int) 0).1).take (34 + 4) =
      (frameBuf (buildFrame
        { dstMac := [1, 2, 3, 4, 5, 6], srcMac := [7, 8, 9, 10, 11, 12], proto := [13, 14],
          iphdr := ⟨1, 2, 3, 4, 5, 6, 7, 8, 9, 10, 11⟩, udphdr := ⟨12, 13, 14, 15⟩,
          message := [0xDE, 0xAD, 0xBE, 0xEF] }
        [0x00, 0x11, 0x22, 0x33, 0x44, 0x55] [0x66, 0x77, 0x88, 0x99, 0xAA, 0xBB]
        (inet_addr 192 168 1 1) (inet_addr 192 168 1 2) 1234 5678 PING ((4 : Nat) : Int)
        0).1).take (34 + 4) ∧
    (frameBuf (scenario PING ((4 : Nat) : Int) 0).1).take (42 + 4) =
      (frameBuf (buildFrame
        { dstMac := [1, 2, 3, 4, 5, 6], srcMac := [7, 8, 9, 10, 11, 12], proto := [13, 14],
          iphdr := ⟨1, 2, 3, 4, 5, 6, 7, 8, 9, 10, 11⟩, udphdr := ⟨12, 13, 14, 15⟩,
          message := [0xDE, 0xAD, 0xBE, 0xEF] }
        [0x00, 0x11, 0x22, 0x33, 0x44, 0x55] [0x66, 0x77, 0x88, 0x99, 0xAA, 0xBB]
        (inet_addr 192 168 1 1) (inet_addr 192 168 1 2) 1234 5678 PING ((4 : Nat) : Int)
        0).1).take (42 + 4) ∧
    (sendMessage (fun _ => 46) (zeroFrame PING.length) 3 2 [0x00, 0x11, 0x22, 0x33, 0x44, 0x55]
        (inet_addr 192 168 1 1) 1234 [0x66, 0x77, 0x88, 0x99, 0xAA, 0xBB]
        (inet_addr 192 168 1 2) 5678 PING ((4 : Nat) : Int) 0).calls.map
        (fun c => c.buf.take c.len) =
      (sendMessage (fun _ => 46)
        { dstMac := [1, 2, 3, 4, 5, 6], srcMac := [7, 8, 9, 10, 11, 12], proto := [13, 14],
          iphdr := ⟨1, 2, 3, 4, 5, 6, 7, 8, 9, 10, 11⟩, udphdr := ⟨12, 13, 14, 15⟩,
          message := [0xDE, 0xAD, 0xBE, 0xEF] }
        3 2 [0x00, 0x11, 0x22, 0x33, 0x44, 0x55]
        (inet_addr 192 168 1 1) 1234 [0x66, 0x77, 0x88, 0x99, 0xAA, 0xBB]
        (inet_addr 192 168 1 2) 5678 PING ((4 : Nat) : Int) 0).calls.map
        (fun c => c.buf.take c.len) :=
  buildFrame_overwrites_frame (zeroFrame PING.length)
    { dstMac := [1, 2, 3, 4, 5, 6], srcMac := [7, 8, 9, 10, 11, 12], proto := [13, 14],
      iphdr := ⟨1, 2, 3, 4, 5, 6, 7, 8, 9, 10, 11⟩, udphdr := ⟨12, 13, 14, 15⟩,
      message := [0xDE, 0xAD, 0xBE, 0xEF] }
    [0x00, 0x11, 0x22, 0x33, 0x44, 0x55] [0x66, 0x77, 0x88, 0x99, 0xAA, 0xBB]
    (inet_addr 192 168 1 1) (inet_addr 192 168 1 2) 1234 5678 PING 4 0 (fun _ => 46) 3 2
    (by decide) (by decide) (by decide) (by decide) (by decide) (by decide) (by decide)
    (by decide)

/-! ## The 32-bit accumulator -/

/-- With enough fuel the unbounded payload loop and the odd-byte step add the payload
sum to the accumulator. -/
theorem udp4_loop_unbounded_sum (fuel : Nat) :
    ∀ (payload : List Nat) (payloadlen : Int) (sum : Nat),
    payloadlen ≤ 2 * (fuel : Int) + 1 →
    (if (udp4_loop_unbounded fuel payload payloadlen sum).2.1 = 1 then
        (udp4_loop_unbounded fuel payload payloadlen sum).2.2
          + (load8 (udp4_loop_unbounded fuel payload payloadlen sum).1 <<< 8) % 65536
      else (udp4_loop_unbounded fuel payload payloadlen sum).2.2)
      = sum + sum16hi payloadlen.toNat payload := by
  induction fuel with
  | zero =>
    intro payload payloadlen sum h
    simp only [udp4_loop_unbounded]
    by_cases hc : payloadlen = 1
    · subst hc
      have hb := load8_lt payload
      simp only [if_true, Int.toNat_one, sum16hi, shiftLeft8]
      omega
    · have h1 : payloadlen.toNat = 0 := by omega
      simp only [hc, if_false, h1, sum16hi]
      omega
  | succ fuel ih =>
    intro payload payloadlen sum h
    unfold udp4_loop_unbounded
    by_cases hc : payloadlen > 1
    · simp only [hc, if_true]
      rw [ih _ _ _ (by omega)]
      have h2 : payloadlen.toNat = (payloadlen - 2).toNat + 2 := by omega
      rw [h2, sum16hi]
      omega
    · simp only [hc, if_false]
      by_cases hc1 : payloadlen = 1
      · subst hc1
        have hb := load8_lt payload
        simp only [if_true, Int.toNat_one, sum16hi, shiftLeft8]
        omega
      · have h1 : payloadlen.toNat = 0 := by omega
        simp only [hc1, if_false, h1, sum16hi]
        omega

theorem udp4_sum_unbounded_eq (iphdr : ip) (udphdr : udphdr) (payload : List Nat)
    (payloadlen : Int) :
    udp4_sum_unbounded iphdr udphdr payload payloadlen =
      udp4HeaderSum iphdr udphdr + sum16hi payloadlen.toNat payload := by
  have h := udp4_loop_unbounded_sum payloadlen.toNat payload payloadlen
    (udp4HeaderSum iphdr udphdr) (by omega)
  unfold udp4_sum_unbounded
  simp only [shiftRight16, and_ffff, shiftLeft8, Nat.zero_add] at h ⊢
  have hsum : iphdr.ip_src % 65536 + iphdr.ip_src / 65536 + iphdr.ip_dst % 65536
      + iphdr.ip_dst / 65536 + iphdr.ip_p * 256 % 65536 + udphdr.len + udphdr.source
      + udphdr.dest + udphdr.len = udp4HeaderSum iphdr udphdr := by
    unfold udp4HeaderSum
    omega
  rw [hsum, h]

/-- Claim C19: for every coverage length `c` with `0 ≤ c ≤ 65507` and every header
(addresses, ports and length within their fields) and payload contents, the accumulator
of `udp4_checksum2`, computed without wrap-around, is below 2^32 when the folding loop
starts, so it never reached 2^32 on the way, and the value `udp4_checksum2` computes with
wrap-around modulo 2^32 equals the value computed over unbounded integers. -/
theorem udp4_checksum2_no_overflow (iphdr : ip) (udphdr : udphdr) (payload : List Nat)
    (c : Nat) (hc : c ≤ 65507) (hi : iphdr.addrWf) (hu : udphdr.wf) :
    udp4_sum_unbounded iphdr udphdr payload (c : Int) < 4294967296 ∧
    udp4_checksum2 iphdr udphdr payload (c : Int) =
      udp4_checksum2_unbounded iphdr udphdr payload (c : Int) := by
  have hb := sum16hi_le c payload
  have hh : udp4HeaderSum iphdr udphdr < 9 * 65536 := by
    obtain ⟨h1, h2⟩ := hi
    obtain ⟨h3, h4, h5⟩ := hu
    unfold udp4HeaderSum
    omega
  have hlt : udp4HeaderSum iphdr udphdr + sum16hi c payload < 4294967296 := by omega
  refine ⟨?_, ?_⟩
  · rw [udp4_sum_unbounded_eq, Int.toNat_ofNat]
    exact hlt
  · unfold udp4_checksum2_unbounded
    simp only []
    rw [udp4_checksum2_eq, udp4_sum_unbounded_eq, Int.toNat_ofNat, Nat.mod_eq_of_lt hlt,
      checksum_fold_eq _ _ (le_refl _)]

theorem udp4_checksum2_no_overflow_witness :
    udp4_sum_unbounded (scenario PING 4 0).1.iphdr (scenario PING 4 0).1.udphdr PING
        ((4 : Nat) : Int) < 4294967296 ∧
    udp4_checksum2 (scenario PING 4 0).1.iphdr (scenario PING 4 0).1.udphdr PING
        ((4 : Nat) : Int) =
      udp4_checksum2_unbounded (scenario PING 4 0).1.iphdr (scenario PING 4 0).1.udphdr PING
        ((4 : Nat) : Int) :=
  udp4_checksum2_no_overflow (scenario PING 4 0).1.iphdr (scenario PING 4 0).1.udphdr PING 4
    (by decide) (by decide) (by decide)

/-! ## The length fields -/

theorem htons_low (v : Nat) (h : v < 65536) : htons v % 256 = v / 256 := by
  unfold htons
  have e1 : v / 256 % 256 = v / 256 := Nat.mod_eq_of_lt (by omega)
  rw [e1]
  omega

theorem htons_high (v : Nat) (h : v < 65536) : htons v / 256 = v % 256 := by
  unfold htons
  have e1 : v / 256 % 256 = v / 256 := Nat.mod_eq_of_lt (by omega)
  rw [e1]
  omega

theorem htons_htons (v : Nat) (h : v < 65536) : htons (htons v) = v := by
  have h1 := htons_low v h
  have h2 := htons_high v h
  have e : htons (htons v) = htons v % 256 * 256 + htons v / 256 % 256 := rfl
  rw [e, h1, h2]
  omega

theorem bytes16_htons (v : Nat) (h : v < 65536) : bytes16 (htons v) = [v / 256, v % 256] := by
  unfold bytes16
  rw [htons_low v h, htons_high v h, Nat.mod_mod]

/-- Claim C20, as stated, fails: for a payload of 65508 zero bytes `buildFrame` returns
65550, not 34 + 65508. -/
theorem buildFrame_large_length_not_34 :
    (scenario (List.replicate 65508 0) 65508 0).2 = 65550 ∧
    (scenario (List.replicate 65508 0) 65508 0).2 ≠ 34 + 65508 := by
  unfold scenario
  rw [buildFrame_snd]
  decide

/-- Claim C20, amended: for every payload length `N ≥ 0` whose frame length fits an
`int`, `buildFrame` stores `(28 + N) mod 2^16` in the IPv4 total-length field (bytes
16..17, big-endian) and `(8 + N) mod 2^16` in the UDP length field (bytes 38..39,
big-endian), while it returns the unreduced `42 + N`; the two length fields equal
`28 + N` and `8 + N` exactly when `N ≤ 65507`, and for larger `N` the IPv4 total length
plus the 14 bytes of the Ethernet header differs from the returned frame length. -/
theorem buildFrame_length_fields (etherFrame : frame) (srcMac dstMac : List Nat)
    (srcIp dstIp : Nat) (srcPort dstPort : Int) (message : List Nat) (N : Nat)
    (checksumLength : Int)
    (hf : etherFrame.wf) (hs : srcMac.length = 6) (hd : dstMac.length = 6)
    (hN : 42 + N ≤ 2147483647) :
    (((frameBuf (buildFrame etherFrame srcMac dstMac srcIp dstIp srcPort dstPort message
        (N : Int) checksumLength).1).drop 16).take 2 =
        [(28 + N) % 65536 / 256, (28 + N) % 65536 % 256] ∧
      htons (buildFrame etherFrame srcMac dstMac srcIp dstIp srcPort dstPort message
        (N : Int) checksumLength).1.iphdr.ip_len = (28 + N) % 65536) ∧
    (((frameBuf (buildFrame etherFrame srcMac dstMac srcIp dstIp srcPort dstPort message
        (N : Int) checksumLength).1).drop 38).take 2 =
        [(8 + N) % 65536 / 256, (8 + N) % 65536 % 256] ∧
      htons (buildFrame etherFrame srcMac dstMac srcIp dstIp srcPort dstPort message
        (N : Int) checksumLength).1.udphdr.len = (8 + N) % 65536) ∧
    (buildFrame etherFrame srcMac dstMac srcIp dstIp srcPort dstPort message
        (N : Int) checksumLength).2 = 42 + (N : Int) ∧
    ((htons (buildFrame etherFrame srcMac dstMac srcIp dstIp srcPort dstPort message
          (N : Int) checksumLength).1.iphdr.ip_len = 28 + N ∧
        htons (buildFrame etherFrame srcMac dstMac srcIp dstIp srcPort dstPort message
          (N : Int) checksumLength).1.udphdr.len = 8 + N) ↔ N ≤ 65507) ∧
    (65507 < N →
      ((htons (buildFrame etherFrame srcMac dstMac srcIp dstIp srcPort dstPort message
          (N : Int) checksumLength).1.iphdr.ip_len : Nat) : Int) + 14 ≠
        (buildFrame etherFrame srcMac dstMac srcIp dstIp srcPort dstPort message
          (N : Int) checksumLength).2) := by
  have h28 : toUint16 (28 + (N : Int)) = (28 + N) % 65536 := by
    unfold toUint16
    omega
  have h8 : toUint16 (8 + (N : Int)) = (8 + N) % 65536 := by
    unfold toUint16
    omega
  have hip : htons (buildFrame etherFrame srcMac dstMac srcIp dstIp srcPort dstPort message
      (N : Int) checksumLength).1.iphdr.ip_len = (28 + N) % 65536 := by
    rw [buildFrame_fst]
    simp only [builtIp, builtIp0, h28]
    exact htons_htons _ (by omega)
  have hudp : htons (buildFrame etherFrame srcMac dstMac srcIp dstIp srcPort dstPort message
      (N : Int) checksumLength).1.udphdr.len = (8 + N) % 65536 := by
    rw [buildFrame_fst]
    simp only [builtUdp0, h8]
    exact htons_htons _ (by omega)
  have hret : (buildFrame etherFrame srcMac dstMac srcIp dstIp srcPort dstPort message
      (N : Int) checksumLength).2 = 42 + (N : Int) := by
    rw [buildFrame_snd]
    unfold toInt32
    omega
  refine ⟨⟨?_, hip⟩, ⟨?_, hudp⟩, hret, ?_, ?_⟩
  · rw [frameBuf_buildFrame _ _ _ _ _ _ _ _ _ _ hf hs hd]
    obtain ⟨a, b, c, d, e, f, rfl⟩ := length_six hs
    obtain ⟨a', b', c', d', e', f', rfl⟩ := length_six hd
    simp only [builtIp, builtIp0, ip.bytes, h28, bytes16_htons _ (Nat.mod_lt _ (by decide))]
    simp only [bytes16, bytes32, List.cons_append, List.nil_append, List.drop_succ_cons,
      List.drop_zero, List.take_succ_cons, List.take_zero]
  · rw [frameBuf_buildFrame _ _ _ _ _ _ _ _ _ _ hf hs hd]
    obtain ⟨a, b, c, d, e, f, rfl⟩ := length_six hs
    obtain ⟨a', b', c', d', e', f', rfl⟩ := length_six hd
    simp only [builtUdp0, udphdr.bytes, h8, bytes16_htons _ (Nat.mod_lt _ (by decide))]
    simp only [ip.bytes, bytes16, bytes32, List.cons_append, List.nil_append,
      List.drop_succ_cons, List.drop_zero, List.take_succ_cons, List.take_zero]
  · rw [hip, hudp]
    omega
  · intro hlarge
    rw [hip, hret]
    omega

theorem buildFrame_length_fields_witness :
    (((frameBuf (scenario (List.replicate 65508 0) ((65508 : Nat) : Int) 0).1).drop 16).take 2 =
        [(28 + 65508) % 65536 / 256, (28 + 65508) % 65536 % 256] ∧
      htons (scenario (List.replicate 65508 0) ((65508 : Nat) : Int) 0).1.iphdr.ip_len
        = (28 + 65508) % 65536) ∧
    (((frameBuf (scenario (List.replicate 65508 0) ((65508 : Nat) : Int) 0).1).drop 38).take 2 =
        [(8 + 65508) % 65536 / 256, (8 + 65508) % 65536 % 256] ∧
      htons (scenario (List.replicate 65508 0) ((65508 : Nat) : Int) 0).1.udphdr.len
        = (8 + 65508) % 65536) ∧
    (scenario (List.replicate 65508 0) ((65508 : Nat) : Int) 0).2 = 42 + ((65508 : Nat) : Int) ∧
    ((htons (scenario (List.replicate 65508 0) ((65508 : Nat) : Int) 0).1.iphdr.ip_len
          = 28 + 65508 ∧
        htons (scenario (List.replicate 65508 0) ((65508 : Nat) : Int) 0).1.udphdr.len
          = 8 + 65508) ↔ 65508 ≤ 65507) ∧
    (65507 < 65508 →
      ((htons (scenario (List.replicate 65508 0) ((65508 : Nat) : Int) 0).1.iphdr.ip_len : Nat)
          : Int) + 14 ≠
        (scenario (List.replicate 65508 0) ((65508 : Nat) : Int) 0).2) :=
  buildFrame_length_fields (zeroFrame (List.replicate 65508 0).length)
    [0x00, 0x11, 0x22, 0x33, 0x44, 0x55] [0x66, 0x77, 0x88, 0x99, 0xAA, 0xBB]
    (inet_addr 192 168 1 1) (inet_addr 192 168 1 2) 1234 5678 (List.replicate 65508 0) 65508 0
    (by decide) (by decide) (by decide) (by decide)

end UDPing
